import Mathlib

/-!
# EmergencyDispatcherSim: record model, store and flat-file persistence

A shallow embedding of `src/main.cpp`.

* `std::string` is a list of characters (`Str`).
* `int` fields are `Int`; the range of a 32-bit `int` is the predicate
  `InIntRange`, and `std::stoi` checks it explicitly.
* The class hierarchy `Emergency` / `MedicalEmergency` / `FireEmergency` /
  `PoliceEmergency` is a record of the base-class fields together with a
  `Variant` holding the fields of the dynamic type.
* The array `emergencies[MAX_EMERGENCIES]` with its `count` is the list of
  the first `count` entries, so `count` is the length of the list.
* The persisted file, the ability of `std::ofstream` to open it and the
  text sent to `std::cerr` form the `World`.
* `time(nullptr)` is an oracle `clock : Nat → Int`: `clock k` is the reading
  taken by the constructor of the record that is stored at index `k` during
  `loadFromFile`.
* An exception thrown by `std::stoi` is never caught in the program; it is
  the `Except.error` result of the loading functions.
* `display` and `displayAllEmergencies` return the text they send to
  `std::cout`.
-/

namespace EmergencyDispatcherSim

/-- The type `std::string`. -/
abbrev Str := List Char

/-! ## Library functions used by the program -/

/-- Auxiliary loop of `natToString`: prepend the decimal digits of `n` to
`acc`; `fuel` bounds the number of digits. -/
def natDigitsAux : Nat → Nat → Str → Str
  | 0, _, acc => acc
  | fuel + 1, n, acc =>
    if n / 10 = 0 then Nat.digitChar (n % 10) :: acc
    else natDigitsAux fuel (n / 10) (Nat.digitChar (n % 10) :: acc)

/-- Decimal text of a natural number, without leading zeros. -/
def natToString (n : Nat) : Str := natDigitsAux (n + 1) n []

/-- The function `std::to_string` on a signed integer. -/
def to_string (i : Int) : Str :=
  if i < 0 then '-' :: natToString i.natAbs else natToString i.natAbs

/-- The predicate `isspace` of the C locale, which `strtol` uses to skip
leading blanks. -/
def isSpace (c : Char) : Bool :=
  c = ' ' || c = '\t' || c = '\n' || c = '\x0b' || c = '\x0c' || c = '\r'

/-- Value of a run of decimal digits, most significant first. -/
def digitsValue (ds : Str) : Nat :=
  ds.foldl (fun acc c => 10 * acc + (c.toNat - 48)) 0

/-- Largest value of an `int`. -/
def INT_MAX : Int := 2147483647

/-- Smallest value of an `int`. -/
def INT_MIN : Int := -2147483648

/-- The values an `int` can hold. -/
def InIntRange (i : Int) : Prop := INT_MIN ≤ i ∧ i ≤ INT_MAX

instance (i : Int) : Decidable (InIntRange i) := by
  unfold InIntRange; exact inferInstance

/-- The two exceptions `std::stoi` throws. -/
inductive StoiError where
  | invalid_argument
  | out_of_range
  deriving DecidableEq

instance instDecidableEqExcept {ε α : Type} [DecidableEq ε] [DecidableEq α] :
    DecidableEq (Except ε α)
  | Except.ok a, Except.ok b =>
    if h : a = b then isTrue (by rw [h]) else isFalse (fun hab => h (Except.ok.inj hab))
  | Except.error a, Except.error b =>
    if h : a = b then isTrue (by rw [h]) else isFalse (fun hab => h (Except.error.inj hab))
  | Except.ok _, Except.error _ => isFalse (fun hab => Except.noConfusion hab)
  | Except.error _, Except.ok _ => isFalse (fun hab => Except.noConfusion hab)

/-- Sign and remaining text after the optional sign that `strtol` accepts. -/
def splitSign : Str → Bool × Str
  | [] => (false, [])
  | c :: t => if c = '-' then (true, t) else if c = '+' then (false, t) else (false, c :: t)

/-- The function `std::stoi` in base 10: leading blanks are skipped, one
optional sign is read, then the longest run of digits; what follows the
digits is ignored. No digit: `invalid_argument`; a value that does not fit an
`int`: `out_of_range`. -/
def stoi (s : Str) : Except StoiError Int :=
  let signed := splitSign (s.dropWhile isSpace)
  let ds := signed.2.takeWhile Char.isDigit
  if ds.isEmpty then Except.error StoiError.invalid_argument
  else
    let v : Int := if signed.1 then -(digitsValue ds : Int) else (digitsValue ds : Int)
    if INT_MIN ≤ v ∧ v ≤ INT_MAX then Except.ok v
    else Except.error StoiError.out_of_range

/-- The call `s.find(c)`: index of the first occurrence of `c`, `none` for
`std::string::npos`. -/
def find (s : Str) (c : Char) : Option Nat :=
  match s with
  | [] => none
  | x :: xs => if x = c then some 0 else (find xs c).map (· + 1)

/-- The three statements `pos = line.find(','); tok = line.substr(0, pos);
line.erase(0, pos + 1);` as one step returning `(tok, line)`. When no comma
is left, `pos` is `npos`: `substr(0, npos)` is the whole text and
`npos + 1` wraps around to `0`, so `erase(0, 0)` removes nothing. -/
def nextField (line : Str) : Str × Str :=
  match find line ',' with
  | none => (line, line)
  | some pos => (line.take pos, line.drop (pos + 1))

/-- One call of `std::getline(file, line)` on the unread rest of a stream:
`none` when nothing is left to read (the call fails), otherwise the text up
to the next line feed, which is consumed, or up to the end of the stream. -/
def getline : Str → Option (Str × Str)
  | [] => none
  | c :: rest =>
    if c = '\n' then some ([], rest)
    else
      match getline rest with
      | none => some ([c], [])
      | some (l, r) => some (c :: l, r)

/-- All lines that successive calls of `std::getline` deliver until the
first call that fails. -/
def fileLines : Str → List Str
  | [] => []
  | c :: rest =>
    if c = '\n' then [] :: fileLines rest
    else
      match fileLines rest with
      | [] => [[c]]
      | l :: ls => (c :: l) :: ls

/-! ## The record model -/

/-- Fields added by the dynamic type of a record; `general` is an object of
the base class itself. -/
inductive Variant where
  | general
  | medical (patientName condition : Str) (isUrgent : Bool)
  | fire (buildingType : Str) (severity : Int) (hazardousMaterials : Bool)
  | police (crimeType : Str) (suspectArmed : Bool) (officersNeeded : Int)
  deriving DecidableEq

/-- The class `Emergency` with the fields of its dynamic type. -/
structure Emergency where
  id : Str
  location : Str
  description : Str
  priority : Int
  timestamp : Int
  status : Str
  variant : Variant
  deriving DecidableEq

/-- The constructor `Emergency::Emergency` run at clock reading `now`,
followed by the member initialisers of the derived class. The operator `%`
of C++ truncates towards zero. -/
def Emergency.construct (now : Int) (loc desc : Str) (pri : Int) (v : Variant) : Emergency :=
  { id := 'E' :: to_string (now.tmod 10000)
    location := loc
    description := desc
    priority := pri
    timestamp := now
    status := "Pending".toList
    variant := v }

/-- The constructor of `MedicalEmergency`. -/
def MedicalEmergency (now : Int) (loc desc : Str) (pri : Int) (patient cond : Str)
    (urgent : Bool) : Emergency :=
  Emergency.construct now loc desc pri (Variant.medical patient cond urgent)

/-- The constructor of `FireEmergency`. -/
def FireEmergency (now : Int) (loc desc : Str) (pri : Int) (building : Str) (sev : Int)
    (hazmat : Bool) : Emergency :=
  Emergency.construct now loc desc pri (Variant.fire building sev hazmat)

/-- The constructor of `PoliceEmergency`. -/
def PoliceEmergency (now : Int) (loc desc : Str) (pri : Int) (crime : Str) (armed : Bool)
    (officers : Int) : Emergency :=
  Emergency.construct now loc desc pri (Variant.police crime armed officers)

/-- The virtual method `getType`. -/
def Emergency.getType (e : Emergency) : Str :=
  match e.variant with
  | Variant.general => "General".toList
  | Variant.medical _ _ _ => "Medical".toList
  | Variant.fire _ _ _ => "Fire".toList
  | Variant.police _ _ _ => "Police".toList

/-- The method `updateStatus`. -/
def Emergency.updateStatus (e : Emergency) (newStatus : Str) : Emergency :=
  { e with status := newStatus }

/-- The method `getId`. -/
def Emergency.getId (e : Emergency) : Str := e.id

/-- Text `"1"` or `"0"` of the expression `(b ? "1" : "0")`. -/
def boolText (b : Bool) : Str := if b then "1".toList else "0".toList

/-- The method `Emergency::toFileString` of the base class. -/
def Emergency.baseFileString (e : Emergency) : Str :=
  e.getType ++ ",".toList ++ e.id ++ ",".toList ++ e.location ++ ",".toList ++ e.description
    ++ ",".toList ++ to_string e.priority ++ ",".toList ++ e.status

/-- The virtual method `toFileString`, dispatched on the dynamic type. -/
def Emergency.toFileString (e : Emergency) : Str :=
  match e.variant with
  | Variant.general => e.baseFileString
  | Variant.medical patientName condition isUrgent =>
    e.baseFileString ++ ",".toList ++ patientName ++ ",".toList ++ condition ++ ",".toList
      ++ boolText isUrgent
  | Variant.fire buildingType severity hazardousMaterials =>
    e.baseFileString ++ ",".toList ++ buildingType ++ ",".toList ++ to_string severity
      ++ ",".toList ++ boolText hazardousMaterials
  | Variant.police crimeType suspectArmed officersNeeded =>
    e.baseFileString ++ ",".toList ++ crimeType ++ ",".toList ++ boolText suspectArmed
      ++ ",".toList ++ to_string officersNeeded

/-- Text `Yes` or `No` of the expression `(b ? "Yes" : "No")`. -/
def yesNo (b : Bool) : Str := if b then "Yes".toList else "No".toList

/-- What the method `Emergency::display` of the base class sends to
`std::cout`; the stream writes an `int` as its decimal text. -/
def Emergency.baseDisplay (e : Emergency) : Str :=
  "Emergency ID: ".toList ++ e.id ++ "\n".toList
    ++ "Location: ".toList ++ e.location ++ "\n".toList
    ++ "Description: ".toList ++ e.description ++ "\n".toList
    ++ "Priority: ".toList ++ to_string e.priority ++ "\n".toList
    ++ "Status: ".toList ++ e.status ++ "\n".toList

/-- What the virtual method `display` sends to `std::cout`, dispatched on the
dynamic type. -/
def Emergency.display (e : Emergency) : Str :=
  match e.variant with
  | Variant.general => e.baseDisplay
  | Variant.medical patientName condition isUrgent =>
    e.baseDisplay ++ "Type: Medical Emergency\n".toList
      ++ "Patient: ".toList ++ patientName ++ "\n".toList
      ++ "Condition: ".toList ++ condition ++ "\n".toList
      ++ "Urgent: ".toList ++ yesNo isUrgent ++ "\n".toList
      ++ "------------------------\n".toList
  | Variant.fire buildingType severity hazardousMaterials =>
    e.baseDisplay ++ "Type: Fire Emergency\n".toList
      ++ "Building Type: ".toList ++ buildingType ++ "\n".toList
      ++ "Severity (1-5): ".toList ++ to_string severity ++ "\n".toList
      ++ "Hazardous Materials: ".toList ++ yesNo hazardousMaterials ++ "\n".toList
      ++ "------------------------\n".toList
  | Variant.police crimeType suspectArmed officersNeeded =>
    e.baseDisplay ++ "Type: Police Emergency\n".toList
      ++ "Crime Type: ".toList ++ crimeType ++ "\n".toList
      ++ "Suspect Armed: ".toList ++ yesNo suspectArmed ++ "\n".toList
      ++ "Officers Needed: ".toList ++ to_string officersNeeded ++ "\n".toList
      ++ "------------------------\n".toList

/-! ## The store -/

/-- The constant `MAX_EMERGENCIES`. -/
def MAX_EMERGENCIES : Nat := 100

/-- The class `EmergencyDispatcher`: `emergencies` lists the entries
`emergencies[0]`, ..., `emergencies[count - 1]` of the array. -/
structure EmergencyDispatcher where
  emergencies : List Emergency
  deriving DecidableEq

/-- The member `count`. -/
def EmergencyDispatcher.count (d : EmergencyDispatcher) : Nat := d.emergencies.length

/-- What the program sees outside its memory: the content of the file named
`filename` (`none` when it cannot be opened for reading), whether
`std::ofstream` can open it for writing, and the text sent to `std::cerr`. -/
structure World where
  file : Option Str
  canWrite : Bool
  cerr : Str
  deriving DecidableEq

/-- The loop of `saveToFile`: every record is sent to the stream, followed by
a line feed. -/
def writeRecords (es : List Emergency) : Str :=
  es.foldl (fun out e => out ++ e.toFileString ++ "\n".toList) []

/-- The method `saveToFile`. Opening a `std::ofstream` truncates the file. -/
def EmergencyDispatcher.saveToFile (d : EmergencyDispatcher) (w : World) : World :=
  if w.canWrite then { w with file := some (writeRecords d.emergencies) }
  else { w with cerr := w.cerr ++ "Error: Could not open file for writing.\n".toList }

/-- The method `addEmergency`: result and the state after the call. -/
def EmergencyDispatcher.addEmergency (d : EmergencyDispatcher) (w : World) (emergency : Emergency) :
    Bool × EmergencyDispatcher × World :=
  if d.count ≥ MAX_EMERGENCIES then (false, d, w)
  else
    let d1 : EmergencyDispatcher := { emergencies := d.emergencies ++ [emergency] }
    (true, d1, d1.saveToFile w)

/-- The loop of `updateEmergencyStatus` over the entries from the current
index on: `none` when the loop runs to its end, otherwise the entries after
the status of the first match was replaced. -/
def updateFirst (id status : Str) : List Emergency → Option (List Emergency)
  | [] => none
  | e :: es =>
    if e.getId = id then some (e.updateStatus status :: es)
    else (updateFirst id status es).map (e :: ·)

/-- The method `updateEmergencyStatus`: result and the state after the call. -/
def EmergencyDispatcher.updateEmergencyStatus (d : EmergencyDispatcher) (w : World)
    (id status : Str) : Bool × EmergencyDispatcher × World :=
  match updateFirst id status d.emergencies with
  | some es =>
    let d1 : EmergencyDispatcher := { emergencies := es }
    (true, d1, d1.saveToFile w)
  | none => (false, d, w)

/-- The method `displayAllEmergencies`: the text it sends to `std::cout`. -/
def EmergencyDispatcher.displayAllEmergencies (d : EmergencyDispatcher) : Str :=
  if d.count = 0 then "No emergencies recorded.\n".toList
  else d.emergencies.foldl (fun out e => out ++ e.display) []

/-- The branch `type == "Medical"` of the loop body of `loadFromFile`, from
the common fields and the rest of the line. -/
def loadMedical (now : Int) (location description : Str) (priority : Int) (status line : Str) :
    Except StoiError (Option Emergency) :=
  let (patient, line) := nextField line
  let (condition, line) := nextField line
  let urgent : Bool := line = "1".toList
  Except.ok (some ((MedicalEmergency now location description priority patient condition
    urgent).updateStatus status))

/-- The branch `type == "Fire"` of the loop body of `loadFromFile`. -/
def loadFire (now : Int) (location description : Str) (priority : Int) (status line : Str) :
    Except StoiError (Option Emergency) :=
  let (building, line) := nextField line
  let (severityText, line) := nextField line
  match stoi severityText with
  | Except.error err => Except.error err
  | Except.ok severity =>
    let hazmat : Bool := line = "1".toList
    Except.ok (some ((FireEmergency now location description priority building severity
      hazmat).updateStatus status))

/-- The branch `type == "Police"` of the loop body of `loadFromFile`. -/
def loadPolice (now : Int) (location description : Str) (priority : Int) (status line : Str) :
    Except StoiError (Option Emergency) :=
  let (crime, line) := nextField line
  let (armedText, line) := nextField line
  let armed : Bool := armedText = "1".toList
  match stoi line with
  | Except.error err => Except.error err
  | Except.ok officers =>
    Except.ok (some ((PoliceEmergency now location description priority crime armed
      officers).updateStatus status))

/-- The body of the loop of `loadFromFile` for one line, run at clock reading
`now`: the record it constructs, `none` when no branch matches the type, or
the exception of a failed `std::stoi`. Each `nextField` step returns the
token and the new value of the variable `line`; the common fields are cut
off first, then the branch for the type is taken. -/
def loadLine (now : Int) (line : Str) : Except StoiError (Option Emergency) :=
  let (type, line) := nextField line
  let (_id, line) := nextField line
  let (location, line) := nextField line
  let (description, line) := nextField line
  let (priorityText, line) := nextField line
  match stoi priorityText with
  | Except.error err => Except.error err
  | Except.ok priority =>
    let (status, line) := nextField line
    if type = "Medical".toList then loadMedical now location description priority status line
    else if type = "Fire".toList then loadFire now location description priority status line
    else if type = "Police".toList then loadPolice now location description priority status line
    else Except.ok none

/-- The loop `while (std::getline(file, line) && count < MAX_EMERGENCIES)`
over the lines still to be read, from the records held so far. -/
def loadLoop (clock : Nat → Int) : List Str → List Emergency →
    Except StoiError (List Emergency)
  | [], es => Except.ok es
  | line :: rest, es =>
    if es.length < MAX_EMERGENCIES then
      match loadLine (clock es.length) line with
      | Except.error err => Except.error err
      | Except.ok none => loadLoop clock rest es
      | Except.ok (some e) => loadLoop clock rest (es ++ [e])
    else Except.ok es

/-- The method `loadFromFile` on a store holding `d`. -/
def EmergencyDispatcher.loadFromFile (clock : Nat → Int) (w : World) (d : EmergencyDispatcher) :
    Except StoiError EmergencyDispatcher :=
  match w.file with
  | none => Except.ok d
  | some content =>
    match loadLoop clock (fileLines content) d.emergencies with
    | Except.error err => Except.error err
    | Except.ok es => Except.ok { emergencies := es }

/-- The constructor of `EmergencyDispatcher`: an empty store, then
`loadFromFile`. -/
def EmergencyDispatcher.create (clock : Nat → Int) (w : World) :
    Except StoiError EmergencyDispatcher :=
  EmergencyDispatcher.loadFromFile clock w { emergencies := [] }

/-! ## Definitions used to state the properties -/

/-- The text a file holds when it consists of one line per record, each line
being the `toFileString` of the record followed by a line feed. -/
def fileImage (es : List Emergency) : Str :=
  (es.map (fun e => e.toFileString ++ ['\n'])).flatten

/-- The first comma-separated field of a line, which `loadFromFile` reads as
the type. -/
def typeField (line : Str) : Str := (nextField line).1

/-- The text `loadFromFile` passes to `std::stoi` for the priority: the fifth
field cut off the line. -/
def priorityField (line : Str) : Str :=
  (nextField (nextField (nextField (nextField (nextField line).2).2).2).2).1

/-- Agreement of two records on everything the file format stores: type,
location, description, priority, status and the fields of the variant. The
identifier and the creation time are left out. -/
def Emergency.SameFields (a b : Emergency) : Prop :=
  a.getType = b.getType ∧ a.location = b.location ∧ a.description = b.description ∧
    a.priority = b.priority ∧ a.status = b.status ∧ a.variant = b.variant

/-- The record `e` as a constructor run at clock reading `now` rebuilds it:
new identifier and creation time, every other field kept. -/
def Emergency.reloaded (now : Int) (e : Emergency) : Emergency :=
  { e with id := 'E' :: to_string (now.tmod 10000), timestamp := now }

/-- The records `es` rebuilt one after the other, the first of them at index
`k` of the store. -/
def reloadAll (clock : Nat → Int) : Nat → List Emergency → List Emergency
  | _, [] => []
  | k, e :: es => e.reloaded (clock k) :: reloadAll clock (k + 1) es

/-- The free-text fields of a record. -/
def Emergency.textFields (e : Emergency) : List Str :=
  [e.location, e.description, e.status] ++
    match e.variant with
    | Variant.general => []
    | Variant.medical patientName condition _ => [patientName, condition]
    | Variant.fire buildingType _ _ => [buildingType]
    | Variant.police crimeType _ _ => [crimeType]

/-- The `int` fields of a record. -/
def Emergency.intFields (e : Emergency) : List Int :=
  e.priority ::
    match e.variant with
    | Variant.general => []
    | Variant.medical _ _ _ => []
    | Variant.fire _ severity _ => [severity]
    | Variant.police _ _ officersNeeded => [officersNeeded]

/-- The invariant of the class `Emergency`: the identifier is the one the
constructor derived from the creation time (no method changes either), and
every `int` field holds a value of an `int`. -/
def Emergency.WellFormed (e : Emergency) : Prop :=
  e.id = 'E' :: to_string (e.timestamp.tmod 10000) ∧ ∀ i ∈ e.intFields, InIntRange i

/-- A Medical, Fire or Police record none of whose free-text fields contains
a comma or a line feed. -/
def Emergency.Persistable (e : Emergency) : Prop :=
  e.variant ≠ Variant.general ∧ ∀ t ∈ e.textFields, ',' ∉ t ∧ '\n' ∉ t

instance (e : Emergency) : Decidable e.WellFormed := by
  unfold Emergency.WellFormed; exact inferInstance

instance (e : Emergency) : Decidable e.Persistable := by
  unfold Emergency.Persistable; exact inferInstance

/-- The variable `line` of `loadFromFile` after `k` fields were cut off. -/
def restAfter : Nat → Str → Str
  | 0, line => line
  | k + 1, line => restAfter k (nextField line).2

/-- The field cut off the line after `k` earlier fields (counting from 0). -/
def fieldAt (k : Nat) (line : Str) : Str := (nextField (restAfter k line)).1

/-- The text `loadFromFile` passes to `std::stoi` for the severity of a Fire
line: the eighth field cut off the line. -/
def severityField (line : Str) : Str := fieldAt 7 line

/-- The text `loadFromFile` passes to `std::stoi` for the officers of a
Police line: what is left of the line after eight fields were cut off. -/
def officersField (line : Str) : Str := restAfter 8 line

/-- Integer text: after leading blanks, an optional sign and then at least
one decimal digit (anything may follow the digits). -/
def StartsWithInteger (s : Str) : Prop :=
  ∃ (ws sign : Str) (d : Char) (rest : Str),
    s = ws ++ sign ++ d :: rest ∧ (∀ c ∈ ws, isSpace c = true) ∧
    (sign = [] ∨ sign = ['-'] ∨ sign = ['+']) ∧ d.isDigit = true

/-- What a record built by the loop body looks like: identifier and creation
time come from the clock, the type is the first field of the line, the `int`
fields passed the range check of `std::stoi`, and every free-text field is a
comma-free piece of the line. -/
def LoadedFrom (now : Int) (line : Str) (e : Emergency) : Prop :=
  e.id = 'E' :: to_string (now.tmod 10000) ∧ e.timestamp = now ∧
  e.getType = typeField line ∧ e.variant ≠ Variant.general ∧
  (∀ i ∈ e.intFields, InIntRange i) ∧
  (∀ t ∈ e.textFields, ',' ∉ t ∧ ∀ c ∈ t, c ∈ line)

/-- The states of the store the program can reach: the constructor, then any
number of calls of `addEmergency` and `updateEmergencyStatus`, whatever the
outside world is at each call. -/
inductive Reachable : EmergencyDispatcher → Prop where
  | create (clock : Nat → Int) (w : World) (d : EmergencyDispatcher) :
      EmergencyDispatcher.create clock w = Except.ok d → Reachable d
  | add (d : EmergencyDispatcher) (w : World) (e : Emergency) :
      Reachable d → Reachable (d.addEmergency w e).2.1
  | update (d : EmergencyDispatcher) (w : World) (id status : Str) :
      Reachable d → Reachable (d.updateEmergencyStatus w id status).2.1

/-- A line with a numeric field that is not integer text: the priority
field, or the severity field of a Fire line, or the officers text of a Police
line. -/
def NonIntegerLine (line : Str) : Prop :=
  ¬ StartsWithInteger (priorityField line) ∨
  (typeField line = "Fire".toList ∧ ¬ StartsWithInteger (severityField line)) ∨
  (typeField line = "Police".toList ∧ ¬ StartsWithInteger (officersField line))

/-- A line from which the loop body of `loadFromFile` constructs a record,
whatever the clock reads. -/
def ValidLine (line : Str) : Prop :=
  ∀ now : Int, ∃ e, loadLine now line = Except.ok (some e)

/-- Decimal integer text: an optional minus sign followed by the digits
`ds`. -/
def decimalText (negative : Bool) (ds : Str) : Str :=
  if negative then '-' :: ds else ds

/-- The integer that the text `decimalText negative ds` denotes. -/
def decimalValue (negative : Bool) (ds : Str) : Int :=
  if negative then -(digitsValue ds : Int) else (digitsValue ds : Int)

/-! ## Supporting lemmas: decimal text -/

theorem natDigitsAux_eq_toDigitsCore (fuel n : Nat) (acc : Str) :
    natDigitsAux fuel n acc = Nat.toDigitsCore 10 fuel n acc := by
  induction fuel generalizing n acc with
  | zero => rfl
  | succ fuel ih =>
    simp only [natDigitsAux, Nat.toDigitsCore]
    split
    · rfl
    · exact ih _ _

theorem natToString_eq_repr (n : Nat) : natToString n = (Nat.repr n).toList :=
  natDigitsAux_eq_toDigitsCore (n + 1) n []

/-- The model of `std::to_string` writes the decimal text of the integer. -/
theorem to_string_eq_toString (i : Int) : to_string i = (toString i).toList := by
  cases i with
  | ofNat m =>
    have h : ¬ (Int.ofNat m < 0) := by simp
    simp only [to_string, h, if_false]
    exact natToString_eq_repr m
  | negSucc m =>
    have h : Int.negSucc m < 0 := Int.negSucc_lt_zero m
    simp only [to_string, h, if_true]
    show '-' :: natToString (m + 1) = ("-" ++ Nat.repr (m + 1)).toList
    rw [natToString_eq_repr]
    rfl

theorem digitChar_isDigit : ∀ d, d < 10 → (Nat.digitChar d).isDigit = true := by decide

theorem digitChar_value : ∀ d, d < 10 → (Nat.digitChar d).toNat - 48 = d := by decide

theorem natDigitsAux_isDigit (fuel n : Nat) (acc : Str) (hacc : ∀ c ∈ acc, c.isDigit = true) :
    ∀ c ∈ natDigitsAux fuel n acc, c.isDigit = true := by
  induction fuel generalizing n acc with
  | zero => exact hacc
  | succ fuel ih =>
    have hd : (Nat.digitChar (n % 10)).isDigit = true :=
      digitChar_isDigit _ (Nat.mod_lt n (by decide))
    have hacc1 : ∀ c ∈ Nat.digitChar (n % 10) :: acc, c.isDigit = true := by
      intro c hc
      rcases List.mem_cons.mp hc with h | h
      · rw [h]; exact hd
      · exact hacc c h
    simp only [natDigitsAux]
    split
    · exact hacc1
    · exact ih _ _ hacc1

theorem natDigitsAux_ne_nil (fuel n : Nat) (acc : Str) :
    natDigitsAux (fuel + 1) n acc ≠ [] := by
  induction fuel generalizing n acc with
  | zero =>
    simp only [natDigitsAux]
    split <;> simp
  | succ fuel ih =>
    rw [natDigitsAux]
    split
    · simp
    · exact ih _ _

theorem natDigitsAux_value (fuel n : Nat) (acc : Str) (h : n < fuel) :
    (natDigitsAux fuel n acc).foldl (fun a c => 10 * a + (c.toNat - 48)) 0
      = acc.foldl (fun a c => 10 * a + (c.toNat - 48)) n := by
  induction fuel generalizing n acc with
  | zero => omega
  | succ fuel ih =>
    have hv : (Nat.digitChar (n % 10)).toNat - 48 = n % 10 :=
      digitChar_value _ (Nat.mod_lt n (by decide))
    simp only [natDigitsAux]
    split
    · rename_i h0
      simp only [List.foldl_cons, hv]
      have : 10 * 0 + n % 10 = n := by omega
      rw [this]
    · rename_i h0
      rw [ih (n / 10) _ (by omega)]
      simp only [List.foldl_cons, hv]
      have : 10 * (n / 10) + n % 10 = n := by omega
      rw [this]

theorem natToString_isDigit (n : Nat) : ∀ c ∈ natToString n, c.isDigit = true :=
  natDigitsAux_isDigit (n + 1) n [] (fun c hc => absurd hc (List.not_mem_nil c))

theorem natToString_ne_nil (n : Nat) : natToString n ≠ [] :=
  natDigitsAux_ne_nil n n []

theorem digitsValue_natToString (n : Nat) : digitsValue (natToString n) = n := by
  unfold digitsValue natToString
  rw [natDigitsAux_value (n + 1) n [] (Nat.lt_succ_self n)]
  rfl

theorem isDigit_not_special (c : Char) (h : c.isDigit = true) :
    c ≠ ',' ∧ c ≠ '\n' ∧ c ≠ '-' ∧ c ≠ '+' ∧ isSpace c = false := by
  refine ⟨?_, ?_, ?_, ?_, ?_⟩
  · intro hc; rw [hc] at h; revert h; decide
  · intro hc; rw [hc] at h; revert h; decide
  · intro hc; rw [hc] at h; revert h; decide
  · intro hc; rw [hc] at h; revert h; decide
  · cases hs : isSpace c with
    | false => rfl
    | true =>
      exfalso
      simp only [isSpace, Bool.or_eq_true, decide_eq_true_eq] at hs
      rcases hs with ((((hc | hc) | hc) | hc) | hc) | hc <;>
        (rw [hc] at h; revert h; decide)

theorem to_string_chars (i : Int) :
    ∀ c ∈ to_string i, c = '-' ∨ c.isDigit = true := by
  intro c hc
  unfold to_string at hc
  split at hc
  · rcases List.mem_cons.mp hc with h | h
    · exact Or.inl h
    · exact Or.inr (natToString_isDigit _ c h)
  · exact Or.inr (natToString_isDigit _ c hc)

theorem to_string_no_separator (i : Int) : ',' ∉ to_string i ∧ '\n' ∉ to_string i := by
  constructor
  · intro hc
    rcases to_string_chars i _ hc with h | h
    · revert h; decide
    · revert h; decide
  · intro hc
    rcases to_string_chars i _ hc with h | h
    · revert h; decide
    · revert h; decide

theorem takeWhile_isDigit_natToString (n : Nat) :
    (natToString n).takeWhile Char.isDigit = natToString n :=
  List.takeWhile_eq_self_iff.mpr (natToString_isDigit n)

theorem stoi_natToString (n : Nat) (h : (n : Int) ≤ INT_MAX) :
    stoi (natToString n) = Except.ok (n : Int) := by
  cases hs : natToString n with
  | nil => exact absurd hs (natToString_ne_nil n)
  | cons c t =>
    have hc : c.isDigit = true := natToString_isDigit n c (by rw [hs]; exact List.mem_cons_self c t)
    obtain ⟨_, _, hminus, hplus, hspace⟩ := isDigit_not_special c hc
    have htw : (c :: t).takeWhile Char.isDigit = c :: t := by
      rw [← hs]; exact takeWhile_isDigit_natToString n
    have hval : digitsValue (c :: t) = n := by
      rw [← hs]; exact digitsValue_natToString n
    have hmin : INT_MIN ≤ (n : Int) := by
      unfold INT_MIN; omega
    unfold stoi
    simp only [List.dropWhile, hspace, splitSign, hminus, hplus, if_false, htw, hval,
      List.isEmpty_cons, Bool.false_eq_true, hmin, h, and_self, if_true]

theorem stoi_neg_natToString (n : Nat) (h : INT_MIN ≤ -(n : Int)) :
    stoi ('-' :: natToString n) = Except.ok (-(n : Int)) := by
  have hne : (natToString n).isEmpty = false := by
    cases hs : natToString n with
    | nil => exact absurd hs (natToString_ne_nil n)
    | cons c t => rfl
  have hspace : isSpace '-' = false := by decide
  have hmax : -(n : Int) ≤ INT_MAX := by
    unfold INT_MAX; omega
  unfold stoi
  simp only [List.dropWhile, hspace, splitSign, if_true, takeWhile_isDigit_natToString, hne,
    Bool.false_eq_true, if_false, digitsValue_natToString, h, hmax, and_self]

/-- Reading back with `std::stoi` what `std::to_string` wrote for an `int`. -/
theorem stoi_to_string (i : Int) (h : InIntRange i) : stoi (to_string i) = Except.ok i := by
  unfold to_string
  by_cases hneg : i < 0
  · have hi : -((i.natAbs : Nat) : Int) = i := by omega
    simp only [hneg, if_true]
    rw [stoi_neg_natToString i.natAbs (by rw [hi]; exact h.1), hi]
  · have hi : ((i.natAbs : Nat) : Int) = i := by omega
    simp only [hneg, if_false]
    rw [stoi_natToString i.natAbs (by rw [hi]; exact h.2), hi]

/-! ## Supporting lemmas: cutting lines and fields -/

theorem find_append_sep (f rest : Str) (c : Char) (h : c ∉ f) :
    find (f ++ c :: rest) c = some f.length := by
  induction f with
  | nil => simp [find]
  | cons x xs ih =>
    have hx : x ≠ c := fun hxc => h (by rw [hxc]; exact List.mem_cons_self c xs)
    have hxs : c ∉ xs := fun hc => h (List.mem_cons_of_mem x hc)
    simp [find, hx, ih hxs]

theorem find_none (s : Str) (c : Char) (h : c ∉ s) : find s c = none := by
  induction s with
  | nil => rfl
  | cons x xs ih =>
    have hx : x ≠ c := fun hxc => h (by rw [hxc]; exact List.mem_cons_self c xs)
    have hxs : c ∉ xs := fun hc => h (List.mem_cons_of_mem x hc)
    simp [find, hx, ih hxs]

theorem nextField_append (f rest : Str) (h : ',' ∉ f) :
    nextField (f ++ ',' :: rest) = (f, rest) := by
  unfold nextField
  rw [find_append_sep f rest ',' h]
  simp

theorem nextField_no_comma (s : Str) (h : ',' ∉ s) : nextField s = (s, s) := by
  unfold nextField
  rw [find_none s ',' h]

theorem intercalate_cons_cons (f g : Str) (fs : List Str) :
    List.intercalate [','] (f :: g :: fs) = f ++ ',' :: List.intercalate [','] (g :: fs) := by
  simp [List.intercalate, List.intersperse]

theorem intercalate_single (f : Str) : List.intercalate [','] [f] = f := by
  simp [List.intercalate, List.intersperse]

theorem nextField_intercalate (f g : Str) (fs : List Str) (h : ',' ∉ f) :
    nextField (List.intercalate [','] (f :: g :: fs)) = (f, List.intercalate [','] (g :: fs)) := by
  rw [intercalate_cons_cons, nextField_append f _ h]

/-- The list `fileLines` is what repeated calls of `getline` deliver. -/
theorem fileLines_eq_getline (s : Str) :
    fileLines s = match getline s with
      | none => []
      | some (l, r) => l :: fileLines r := by
  induction s with
  | nil => rfl
  | cons c rest ih =>
    by_cases hc : c = '\n'
    · simp [fileLines, getline, hc]
    · simp only [fileLines, getline, hc, if_false]
      rw [ih]
      cases getline rest with
      | none => rfl
      | some p => rfl

theorem fileLines_append (l rest : Str) (h : '\n' ∉ l) :
    fileLines (l ++ '\n' :: rest) = l :: fileLines rest := by
  induction l with
  | nil => simp [fileLines]
  | cons x xs ih =>
    have hx : x ≠ '\n' := fun hxc => h (by rw [hxc]; exact List.mem_cons_self _ xs)
    have hxs : '\n' ∉ xs := fun hc => h (List.mem_cons_of_mem x hc)
    simp [fileLines, hx, ih hxs]

theorem fileLines_fileImage (es : List Emergency) (h : ∀ e ∈ es, '\n' ∉ e.toFileString) :
    fileLines (fileImage es) = es.map Emergency.toFileString := by
  induction es with
  | nil => rfl
  | cons e es ih =>
    have he : '\n' ∉ e.toFileString := h e (List.mem_cons_self e es)
    have hes : ∀ x ∈ es, '\n' ∉ x.toFileString := fun x hx => h x (List.mem_cons_of_mem e hx)
    have hsplit : fileImage (e :: es) = e.toFileString ++ '\n' :: fileImage es := by
      simp [fileImage]
    rw [hsplit, fileLines_append _ _ he, ih hes]
    rfl

/-! ## Supporting lemmas: the layout of a line -/

theorem boolText_eq_one (b : Bool) : decide (boolText b = "1".toList) = b := by
  cases b <;> decide

theorem boolText_no_separator (b : Bool) : ',' ∉ boolText b ∧ '\n' ∉ boolText b := by
  cases b <;> decide

theorem toFileString_medical (id loc desc status patientName condition : Str) (pri ts : Int)
    (urgent : Bool) :
    (Emergency.mk id loc desc pri ts status
        (Variant.medical patientName condition urgent)).toFileString
      = List.intercalate [','] ["Medical".toList, id, loc, desc, to_string pri, status,
          patientName, condition, boolText urgent] := by
  simp [Emergency.toFileString, Emergency.baseFileString, Emergency.getType,
    List.intercalate, List.intersperse]

theorem toFileString_fire (id loc desc status buildingType : Str) (pri ts severity : Int)
    (hazmat : Bool) :
    (Emergency.mk id loc desc pri ts status
        (Variant.fire buildingType severity hazmat)).toFileString
      = List.intercalate [','] ["Fire".toList, id, loc, desc, to_string pri, status,
          buildingType, to_string severity, boolText hazmat] := by
  simp [Emergency.toFileString, Emergency.baseFileString, Emergency.getType,
    List.intercalate, List.intersperse]

theorem toFileString_police (id loc desc status crimeType : Str) (pri ts officersNeeded : Int)
    (armed : Bool) :
    (Emergency.mk id loc desc pri ts status
        (Variant.police crimeType armed officersNeeded)).toFileString
      = List.intercalate [','] ["Police".toList, id, loc, desc, to_string pri, status,
          crimeType, boolText armed, to_string officersNeeded] := by
  simp [Emergency.toFileString, Emergency.baseFileString, Emergency.getType,
    List.intercalate, List.intersperse]

/-- The common part of `loadLine` fails when `std::stoi` rejects the priority
text, whatever the type. -/
theorem loadLine_priority_error (now : Int) (line type l1 id l2 loc l3 desc l4 ptext l5 : Str)
    (err : StoiError)
    (h1 : nextField line = (type, l1)) (h2 : nextField l1 = (id, l2))
    (h3 : nextField l2 = (loc, l3)) (h4 : nextField l3 = (desc, l4))
    (h5 : nextField l4 = (ptext, l5)) (hp : stoi ptext = Except.error err) :
    loadLine now line = Except.error err := by
  simp only [loadLine, h1, h2, h3, h4, h5, hp]

theorem loadLine_other_of (now : Int) (line type l1 id l2 loc l3 desc l4 ptext l5 : Str)
    (pri : Int)
    (h1 : nextField line = (type, l1)) (h2 : nextField l1 = (id, l2))
    (h3 : nextField l2 = (loc, l3)) (h4 : nextField l3 = (desc, l4))
    (h5 : nextField l4 = (ptext, l5)) (hp : stoi ptext = Except.ok pri)
    (hm : type ≠ "Medical".toList) (hf : type ≠ "Fire".toList)
    (hpo : type ≠ "Police".toList) :
    loadLine now line = Except.ok none := by
  cases h6 : nextField l5 with
  | mk status l6 =>
    simp only [loadLine, h1, h2, h3, h4, h5, hp, h6, hm, hf, hpo, if_false]

theorem loadLine_medical_of (now : Int)
    (line l1 id l2 loc l3 desc l4 ptext l5 status l6 patient l7 cond l8 : Str) (pri : Int)
    (h1 : nextField line = ("Medical".toList, l1)) (h2 : nextField l1 = (id, l2))
    (h3 : nextField l2 = (loc, l3)) (h4 : nextField l3 = (desc, l4))
    (h5 : nextField l4 = (ptext, l5)) (hp : stoi ptext = Except.ok pri)
    (h6 : nextField l5 = (status, l6)) (h7 : nextField l6 = (patient, l7))
    (h8 : nextField l7 = (cond, l8)) :
    loadLine now line = Except.ok (some (Emergency.mk ('E' :: to_string (now.tmod 10000))
      loc desc pri now status (Variant.medical patient cond (decide (l8 = "1".toList))))) := by
  have hb : loadMedical now loc desc pri status l6
      = Except.ok (some (Emergency.mk ('E' :: to_string (now.tmod 10000))
          loc desc pri now status (Variant.medical patient cond (decide (l8 = "1".toList))))) := by
    simp only [loadMedical, h7, h8]
    rfl
  simp only [loadLine, h1, h2, h3, h4, h5, hp, h6, if_true, hb]

theorem loadLine_fire_of (now : Int)
    (line l1 id l2 loc l3 desc l4 ptext l5 status l6 building l7 stext l8 : Str)
    (pri sev : Int)
    (h1 : nextField line = ("Fire".toList, l1)) (h2 : nextField l1 = (id, l2))
    (h3 : nextField l2 = (loc, l3)) (h4 : nextField l3 = (desc, l4))
    (h5 : nextField l4 = (ptext, l5)) (hp : stoi ptext = Except.ok pri)
    (h6 : nextField l5 = (status, l6)) (h7 : nextField l6 = (building, l7))
    (h8 : nextField l7 = (stext, l8)) (hs : stoi stext = Except.ok sev) :
    loadLine now line = Except.ok (some (Emergency.mk ('E' :: to_string (now.tmod 10000))
      loc desc pri now status (Variant.fire building sev (decide (l8 = "1".toList))))) := by
  have hne : ¬ ("Fire".toList = "Medical".toList) := by decide
  have hb : loadFire now loc desc pri status l6
      = Except.ok (some (Emergency.mk ('E' :: to_string (now.tmod 10000))
          loc desc pri now status (Variant.fire building sev (decide (l8 = "1".toList))))) := by
    simp only [loadFire, h7, h8, hs]
    rfl
  simp only [loadLine, h1, h2, h3, h4, h5, hp, h6, hne, if_true, if_false, hb]

theorem loadLine_police_of (now : Int)
    (line l1 id l2 loc l3 desc l4 ptext l5 status l6 crime l7 atext l8 : Str)
    (pri off : Int)
    (h1 : nextField line = ("Police".toList, l1)) (h2 : nextField l1 = (id, l2))
    (h3 : nextField l2 = (loc, l3)) (h4 : nextField l3 = (desc, l4))
    (h5 : nextField l4 = (ptext, l5)) (hp : stoi ptext = Except.ok pri)
    (h6 : nextField l5 = (status, l6)) (h7 : nextField l6 = (crime, l7))
    (h8 : nextField l7 = (atext, l8)) (ho : stoi l8 = Except.ok off) :
    loadLine now line = Except.ok (some (Emergency.mk ('E' :: to_string (now.tmod 10000))
      loc desc pri now status (Variant.police crime (decide (atext = "1".toList)) off))) := by
  have hne1 : ¬ ("Police".toList = "Medical".toList) := by decide
  have hne2 : ¬ ("Police".toList = "Fire".toList) := by decide
  have hb : loadPolice now loc desc pri status l6
      = Except.ok (some (Emergency.mk ('E' :: to_string (now.tmod 10000))
          loc desc pri now status (Variant.police crime (decide (atext = "1".toList)) off))) := by
    simp only [loadPolice, h7, h8, ho]
    rfl
  simp only [loadLine, h1, h2, h3, h4, h5, hp, h6, hne1, hne2, if_true, if_false, hb]

theorem loadLine_medical (now : Int) (id loc desc status patientName condition : Str)
    (pri : Int) (urgent : Bool) (hid : ',' ∉ id) (hloc : ',' ∉ loc) (hdesc : ',' ∉ desc)
    (hstatus : ',' ∉ status) (hp : ',' ∉ patientName) (hc : ',' ∉ condition)
    (hpri : InIntRange pri) :
    loadLine now (List.intercalate [','] ["Medical".toList, id, loc, desc, to_string pri,
        status, patientName, condition, boolText urgent])
      = Except.ok (some (Emergency.mk ('E' :: to_string (now.tmod 10000)) loc desc pri now
          status (Variant.medical patientName condition urgent))) := by
  have h := loadLine_medical_of now _ _ id _ loc _ desc _ (to_string pri) _ status _
    patientName _ condition (boolText urgent) pri
    (nextField_intercalate _ _ _ (by decide)) (nextField_intercalate _ _ _ hid)
    (nextField_intercalate _ _ _ hloc) (nextField_intercalate _ _ _ hdesc)
    (nextField_intercalate _ _ _ (to_string_no_separator pri).1) (stoi_to_string pri hpri)
    (nextField_intercalate _ _ _ hstatus) (nextField_intercalate _ _ _ hp)
    (by rw [nextField_intercalate _ _ _ hc, intercalate_single])
  rw [boolText_eq_one] at h
  exact h

theorem loadLine_fire (now : Int) (id loc desc status buildingType : Str)
    (pri severity : Int) (hazmat : Bool) (hid : ',' ∉ id) (hloc : ',' ∉ loc)
    (hdesc : ',' ∉ desc) (hstatus : ',' ∉ status) (hb : ',' ∉ buildingType)
    (hpri : InIntRange pri) (hsev : InIntRange severity) :
    loadLine now (List.intercalate [','] ["Fire".toList, id, loc, desc, to_string pri,
        status, buildingType, to_string severity, boolText hazmat])
      = Except.ok (some (Emergency.mk ('E' :: to_string (now.tmod 10000)) loc desc pri now
          status (Variant.fire buildingType severity hazmat))) := by
  have h := loadLine_fire_of now _ _ id _ loc _ desc _ (to_string pri) _ status _
    buildingType _ (to_string severity) (boolText hazmat) pri severity
    (nextField_intercalate _ _ _ (by decide)) (nextField_intercalate _ _ _ hid)
    (nextField_intercalate _ _ _ hloc) (nextField_intercalate _ _ _ hdesc)
    (nextField_intercalate _ _ _ (to_string_no_separator pri).1) (stoi_to_string pri hpri)
    (nextField_intercalate _ _ _ hstatus) (nextField_intercalate _ _ _ hb)
    (by rw [nextField_intercalate _ _ _ (to_string_no_separator severity).1,
      intercalate_single])
    (stoi_to_string severity hsev)
  rw [boolText_eq_one] at h
  exact h

theorem loadLine_police (now : Int) (id loc desc status crimeType : Str)
    (pri officersNeeded : Int) (armed : Bool) (hid : ',' ∉ id) (hloc : ',' ∉ loc)
    (hdesc : ',' ∉ desc) (hstatus : ',' ∉ status) (hcr : ',' ∉ crimeType)
    (hpri : InIntRange pri) (hoff : InIntRange officersNeeded) :
    loadLine now (List.intercalate [','] ["Police".toList, id, loc, desc, to_string pri,
        status, crimeType, boolText armed, to_string officersNeeded])
      = Except.ok (some (Emergency.mk ('E' :: to_string (now.tmod 10000)) loc desc pri now
          status (Variant.police crimeType armed officersNeeded))) := by
  have h := loadLine_police_of now _ _ id _ loc _ desc _ (to_string pri) _ status _
    crimeType _ (boolText armed) (to_string officersNeeded) pri officersNeeded
    (nextField_intercalate _ _ _ (by decide)) (nextField_intercalate _ _ _ hid)
    (nextField_intercalate _ _ _ hloc) (nextField_intercalate _ _ _ hdesc)
    (nextField_intercalate _ _ _ (to_string_no_separator pri).1) (stoi_to_string pri hpri)
    (nextField_intercalate _ _ _ hstatus) (nextField_intercalate _ _ _ hcr)
    (by rw [nextField_intercalate _ _ _ (boolText_no_separator armed).1,
      intercalate_single])
    (stoi_to_string officersNeeded hoff)
  rw [boolText_eq_one] at h
  exact h

/-! ## Supporting lemmas: the store -/

theorem writeRecords_foldl (es : List Emergency) (out : Str) :
    es.foldl (fun out e => out ++ e.toFileString ++ "\n".toList) out = out ++ fileImage es := by
  induction es generalizing out with
  | nil => simp [fileImage]
  | cons e es ih =>
    rw [List.foldl_cons, ih]
    simp [fileImage, List.append_assoc]

theorem writeRecords_eq_fileImage (es : List Emergency) : writeRecords es = fileImage es := by
  unfold writeRecords
  rw [writeRecords_foldl]
  rfl

theorem updateFirst_none (id status : Str) (es : List Emergency)
    (h : ∀ e ∈ es, e.getId ≠ id) : updateFirst id status es = none := by
  induction es with
  | nil => rfl
  | cons e es ih =>
    have h1 : e.getId ≠ id := h e (List.mem_cons_self e es)
    have h2 : ∀ x ∈ es, x.getId ≠ id := fun x hx => h x (List.mem_cons_of_mem e hx)
    simp [updateFirst, h1, ih h2]

theorem updateFirst_some (id status : Str) (es : List Emergency)
    (h : ∃ e ∈ es, e.getId = id) :
    ∃ pre r post, es = pre ++ r :: post ∧ (∀ x ∈ pre, x.getId ≠ id) ∧ r.getId = id ∧
      updateFirst id status es = some (pre ++ r.updateStatus status :: post) := by
  induction es with
  | nil =>
    obtain ⟨e, he, _⟩ := h
    exact absurd he (List.not_mem_nil e)
  | cons e es ih =>
    by_cases hid : e.getId = id
    · refine ⟨[], e, es, rfl, ?_, hid, ?_⟩
      · intro x hx
        exact absurd hx (List.not_mem_nil x)
      · simp [updateFirst, hid]
    · have h2 : ∃ x ∈ es, x.getId = id := by
        obtain ⟨x, hx, hxid⟩ := h
        rcases List.mem_cons.mp hx with hxe | hxes
        · exact absurd (hxe ▸ hxid) hid
        · exact ⟨x, hxes, hxid⟩
      obtain ⟨pre, r, post, hes, hpre, hr, hup⟩ := ih h2
      refine ⟨e :: pre, r, post, by rw [hes]; rfl, ?_, hr, ?_⟩
      · intro x hx
        rcases List.mem_cons.mp hx with hxe | hxpre
        · rw [hxe]; exact hid
        · exact hpre x hxpre
      · simp [updateFirst, hid, hup]

/-! ## Supporting lemmas: saving and loading again -/

theorem not_mem_intercalate (c : Char) (hc : c ≠ ',') (fs : List Str)
    (h : ∀ f ∈ fs, c ∉ f) : c ∉ List.intercalate [','] fs := by
  induction fs with
  | nil => simp [List.intercalate, List.intersperse]
  | cons f fs ih =>
    have hf : c ∉ f := h f (List.mem_cons_self f fs)
    have hfs : ∀ g ∈ fs, c ∉ g := fun g hg => h g (List.mem_cons_of_mem f hg)
    cases fs with
    | nil => rw [intercalate_single]; exact hf
    | cons g gs =>
      rw [intercalate_cons_cons]
      intro hmem
      rcases List.mem_append.mp hmem with h1 | h1
      · exact hf h1
      · rcases List.mem_cons.mp h1 with h2 | h2
        · exact hc h2
        · exact ih hfs h2

theorem id_no_separator (e : Emergency) (hwf : e.WellFormed) : ',' ∉ e.id ∧ '\n' ∉ e.id := by
  rw [hwf.1]
  constructor
  · intro h
    rcases List.mem_cons.mp h with h1 | h1
    · revert h1; decide
    · exact (to_string_no_separator _).1 h1
  · intro h
    rcases List.mem_cons.mp h with h1 | h1
    · revert h1; decide
    · exact (to_string_no_separator _).2 h1

theorem loadLine_toFileString (now : Int) (e : Emergency) (hwf : e.WellFormed)
    (hp : e.Persistable) :
    loadLine now e.toFileString = Except.ok (some (e.reloaded now)) := by
  have hid := (id_no_separator e hwf).1
  obtain ⟨_, hints⟩ := hwf
  obtain ⟨hv, htext⟩ := hp
  cases e with
  | mk id loc desc pri ts status v =>
    cases v with
    | general => exact absurd rfl hv
    | medical patientName condition urgent =>
      rw [toFileString_medical]
      exact loadLine_medical now id loc desc status patientName condition pri urgent hid
        (htext loc (by simp [Emergency.textFields])).1
        (htext desc (by simp [Emergency.textFields])).1
        (htext status (by simp [Emergency.textFields])).1
        (htext patientName (by simp [Emergency.textFields])).1
        (htext condition (by simp [Emergency.textFields])).1
        (hints pri (by simp [Emergency.intFields]))
    | fire buildingType severity hazmat =>
      rw [toFileString_fire]
      exact loadLine_fire now id loc desc status buildingType pri severity hazmat hid
        (htext loc (by simp [Emergency.textFields])).1
        (htext desc (by simp [Emergency.textFields])).1
        (htext status (by simp [Emergency.textFields])).1
        (htext buildingType (by simp [Emergency.textFields])).1
        (hints pri (by simp [Emergency.intFields]))
        (hints severity (by simp [Emergency.intFields]))
    | police crimeType armed officersNeeded =>
      rw [toFileString_police]
      exact loadLine_police now id loc desc status crimeType pri officersNeeded armed hid
        (htext loc (by simp [Emergency.textFields])).1
        (htext desc (by simp [Emergency.textFields])).1
        (htext status (by simp [Emergency.textFields])).1
        (htext crimeType (by simp [Emergency.textFields])).1
        (hints pri (by simp [Emergency.intFields]))
        (hints officersNeeded (by simp [Emergency.intFields]))

theorem toFileString_no_line_feed (e : Emergency) (hwf : e.WellFormed) (hp : e.Persistable) :
    '\n' ∉ e.toFileString := by
  have hid := (id_no_separator e hwf).2
  obtain ⟨hv, htext⟩ := hp
  have hne : ('\n' : Char) ≠ ',' := by decide
  cases e with
  | mk id loc desc pri ts status v =>
    have hloc := (htext loc (by simp [Emergency.textFields])).2
    have hdesc := (htext desc (by simp [Emergency.textFields])).2
    have hstatus := (htext status (by simp [Emergency.textFields])).2
    have hpri := (to_string_no_separator pri).2
    cases v with
    | general => exact absurd rfl hv
    | medical patientName condition urgent =>
      have h1 := (htext patientName (by simp [Emergency.textFields])).2
      have h2 := (htext condition (by simp [Emergency.textFields])).2
      have h3 := (boolText_no_separator urgent).2
      have h0 : '\n' ∉ "Medical".toList := by decide
      rw [toFileString_medical]
      apply not_mem_intercalate _ hne
      intro f hf
      simp only [List.mem_cons, List.mem_singleton, List.not_mem_nil, or_false] at hf
      rcases hf with h | h | h | h | h | h | h | h | h <;> (rw [h]; assumption)
    | fire buildingType severity hazmat =>
      have h1 := (htext buildingType (by simp [Emergency.textFields])).2
      have h2 := (to_string_no_separator severity).2
      have h3 := (boolText_no_separator hazmat).2
      have h0 : '\n' ∉ "Fire".toList := by decide
      rw [toFileString_fire]
      apply not_mem_intercalate _ hne
      intro f hf
      simp only [List.mem_cons, List.mem_singleton, List.not_mem_nil, or_false] at hf
      rcases hf with h | h | h | h | h | h | h | h | h <;> (rw [h]; assumption)
    | police crimeType armed officersNeeded =>
      have h1 := (htext crimeType (by simp [Emergency.textFields])).2
      have h2 := (to_string_no_separator officersNeeded).2
      have h3 := (boolText_no_separator armed).2
      have h0 : '\n' ∉ "Police".toList := by decide
      rw [toFileString_police]
      apply not_mem_intercalate _ hne
      intro f hf
      simp only [List.mem_cons, List.mem_singleton, List.not_mem_nil, or_false] at hf
      rcases hf with h | h | h | h | h | h | h | h | h <;> (rw [h]; assumption)

theorem loadLoop_toFileString (clock : Nat → Int) (es acc : List Emergency)
    (hlen : acc.length + es.length ≤ MAX_EMERGENCIES)
    (hwf : ∀ e ∈ es, e.WellFormed) (hp : ∀ e ∈ es, e.Persistable) :
    loadLoop clock (es.map Emergency.toFileString) acc
      = Except.ok (acc ++ reloadAll clock acc.length es) := by
  induction es generalizing acc with
  | nil => simp [loadLoop, reloadAll]
  | cons e es ih =>
    have hlt : acc.length < MAX_EMERGENCIES := by
      simp only [List.length_cons] at hlen
      omega
    have hline := loadLine_toFileString (clock acc.length) e
      (hwf e (List.mem_cons_self e es)) (hp e (List.mem_cons_self e es))
    have hnext := ih (acc ++ [e.reloaded (clock acc.length)])
      (by simp only [List.length_append, List.length_cons, List.length_nil] at hlen ⊢; omega)
      (fun x hx => hwf x (List.mem_cons_of_mem e hx))
      (fun x hx => hp x (List.mem_cons_of_mem e hx))
    simp only [List.map_cons, loadLoop, hlt, if_true, hline, hnext, reloadAll,
      List.length_append, List.length_cons, List.length_nil, List.append_assoc,
      List.singleton_append, Nat.zero_add]

theorem reloaded_sameFields (now : Int) (e : Emergency) :
    (e.reloaded now).SameFields e :=
  ⟨rfl, rfl, rfl, rfl, rfl, rfl⟩

theorem reloadAll_sameFields (clock : Nat → Int) (k : Nat) (es : List Emergency) :
    List.Forall₂ Emergency.SameFields (reloadAll clock k es) es := by
  induction es generalizing k with
  | nil => exact List.Forall₂.nil
  | cons e es ih => exact List.Forall₂.cons (reloaded_sameFields (clock k) e) (ih (k + 1))

theorem reloadAll_length (clock : Nat → Int) (k : Nat) (es : List Emergency) :
    (reloadAll clock k es).length = es.length := by
  induction es generalizing k with
  | nil => rfl
  | cons e es ih => simp [reloadAll, ih]

theorem create_after_save (clock : Nat → Int) (d : EmergencyDispatcher) (w : World)
    (hw : w.canWrite = true) (hcount : d.count ≤ MAX_EMERGENCIES)
    (hwf : ∀ e ∈ d.emergencies, e.WellFormed) (hp : ∀ e ∈ d.emergencies, e.Persistable) :
    EmergencyDispatcher.create clock (d.saveToFile w)
      = Except.ok { emergencies := reloadAll clock 0 d.emergencies } := by
  have hlines : fileLines (fileImage d.emergencies) = d.emergencies.map Emergency.toFileString :=
    fileLines_fileImage d.emergencies
      (fun e he => toFileString_no_line_feed e (hwf e he) (hp e he))
  have hloop := loadLoop_toFileString clock d.emergencies [] (by simpa using hcount) hwf hp
  simp only [List.length_nil, List.nil_append] at hloop
  simp only [EmergencyDispatcher.create, EmergencyDispatcher.loadFromFile,
    EmergencyDispatcher.saveToFile, hw, if_true, writeRecords_eq_fileImage, hlines, hloop]

/-! ## Properties of the store -/

/-- C1: on a store holding fewer than 100 records, `addEmergency` returns
true, the count grows by exactly one, the new record is the last one, and the
records held before are the same, at the same positions. -/
theorem addEmergency_below_capacity (d : EmergencyDispatcher) (w : World) (r : Emergency)
    (h : d.count < 100) :
    (d.addEmergency w r).1 = true ∧
    (d.addEmergency w r).2.1.count = d.count + 1 ∧
    (d.addEmergency w r).2.1.emergencies = d.emergencies ++ [r] ∧
    (d.addEmergency w r).2.1.emergencies.getLast? = some r ∧
    (∀ i, i < d.count →
      (d.addEmergency w r).2.1.emergencies[i]? = d.emergencies[i]?) := by
  have hlt : ¬ d.count ≥ MAX_EMERGENCIES := by
    unfold MAX_EMERGENCIES
    omega
  have hres : (d.addEmergency w r).2.1.emergencies = d.emergencies ++ [r] := by
    simp [EmergencyDispatcher.addEmergency, hlt]
  refine ⟨?_, ?_, hres, ?_, ?_⟩
  · simp [EmergencyDispatcher.addEmergency, hlt]
  · simp [EmergencyDispatcher.count, hres]
  · rw [hres]
    simp
  · intro i hi
    rw [hres]
    exact List.getElem?_append_left hi

theorem addEmergency_below_capacity_witness :
    (EmergencyDispatcher.mk []).count < 100 ∧
    ((EmergencyDispatcher.mk []).addEmergency (World.mk none true [])
        (MedicalEmergency 5 [] [] 1 [] [] true)).2.1.emergencies
      = [] ++ [MedicalEmergency 5 [] [] 1 [] [] true] :=
  ⟨by decide, (addEmergency_below_capacity (EmergencyDispatcher.mk []) (World.mk none true [])
    (MedicalEmergency 5 [] [] 1 [] [] true) (by decide)).2.2.1⟩

/-- C2: on a store holding exactly 100 records, `addEmergency` returns false
and leaves the count, every stored record and the file content (indeed the
whole outside world) as they were. -/
theorem addEmergency_at_capacity (d : EmergencyDispatcher) (w : World) (r : Emergency)
    (h : d.count = 100) :
    (d.addEmergency w r).1 = false ∧
    (d.addEmergency w r).2.1.count = d.count ∧
    (d.addEmergency w r).2.1.emergencies = d.emergencies ∧
    (d.addEmergency w r).2.2.file = w.file ∧
    (d.addEmergency w r).2.2 = w := by
  have hge : d.count ≥ MAX_EMERGENCIES := by
    unfold MAX_EMERGENCIES
    omega
  simp [EmergencyDispatcher.addEmergency, hge]

theorem addEmergency_at_capacity_witness :
    (EmergencyDispatcher.mk (List.replicate 100 (FireEmergency 7 [] [] 1 [] 1 false))).count = 100 ∧
    ((EmergencyDispatcher.mk (List.replicate 100 (FireEmergency 7 [] [] 1 [] 1 false))).addEmergency
        (World.mk (some ['x']) true []) (MedicalEmergency 5 [] [] 1 [] [] true)).1 = false :=
  ⟨by simp [EmergencyDispatcher.count],
   (addEmergency_at_capacity
      (EmergencyDispatcher.mk (List.replicate 100 (FireEmergency 7 [] [] 1 [] 1 false)))
      (World.mk (some ['x']) true []) (MedicalEmergency 5 [] [] 1 [] [] true)
      (by simp [EmergencyDispatcher.count])).1⟩

/-- C3: when some stored record has identifier `id`, `updateEmergencyStatus`
returns true; the records split as `pre ++ r :: post` with `r` the first
record whose identifier is `id`, and afterwards they are `pre ++ r1 :: post`
where `r1` has status `s` and agrees with `r` on every other field. The count
is the same. -/
theorem updateEmergencyStatus_existing (d : EmergencyDispatcher) (w : World) (id s : Str)
    (h : ∃ e ∈ d.emergencies, e.getId = id) :
    (d.updateEmergencyStatus w id s).1 = true ∧
    (d.updateEmergencyStatus w id s).2.1.count = d.count ∧
    ∃ pre r r1 post,
      d.emergencies = pre ++ r :: post ∧
      (∀ x ∈ pre, x.getId ≠ id) ∧ r.getId = id ∧
      (d.updateEmergencyStatus w id s).2.1.emergencies = pre ++ r1 :: post ∧
      r1.status = s ∧ r1.id = r.id ∧ r1.location = r.location ∧
      r1.description = r.description ∧ r1.priority = r.priority ∧
      r1.timestamp = r.timestamp ∧ r1.variant = r.variant := by
  obtain ⟨pre, r, post, hes, hpre, hr, hup⟩ := updateFirst_some id s d.emergencies h
  have hres : (d.updateEmergencyStatus w id s).2.1.emergencies
      = pre ++ r.updateStatus s :: post := by
    simp [EmergencyDispatcher.updateEmergencyStatus, hup]
  refine ⟨?_, ?_, pre, r, r.updateStatus s, post, hes, hpre, hr, hres, rfl, rfl, rfl, rfl,
    rfl, rfl, rfl⟩
  · simp [EmergencyDispatcher.updateEmergencyStatus, hup]
  · simp [EmergencyDispatcher.count, hres, hes]

theorem updateEmergencyStatus_existing_witness :
    (∃ e ∈ (EmergencyDispatcher.mk [MedicalEmergency 5 [] [] 1 [] [] true,
        FireEmergency 5 [] [] 2 [] 3 false]).emergencies, e.getId = ['E', '5']) ∧
    ((EmergencyDispatcher.mk [MedicalEmergency 5 [] [] 1 [] [] true,
        FireEmergency 5 [] [] 2 [] 3 false]).updateEmergencyStatus
          (World.mk none true []) ['E', '5'] ['o', 'k']).1 = true :=
  ⟨⟨MedicalEmergency 5 [] [] 1 [] [] true, by simp, by decide⟩,
   (updateEmergencyStatus_existing
      (EmergencyDispatcher.mk [MedicalEmergency 5 [] [] 1 [] [] true,
        FireEmergency 5 [] [] 2 [] 3 false])
      (World.mk none true []) ['E', '5'] ['o', 'k']
      ⟨MedicalEmergency 5 [] [] 1 [] [] true, by simp, by decide⟩).1⟩

/-- C4: when no stored record has identifier `id` (equality of the texts,
character by character), `updateEmergencyStatus` returns false and changes
nothing: the records, the file content and the rest of the outside world are
as before the call. -/
theorem updateEmergencyStatus_missing (d : EmergencyDispatcher) (w : World) (id s : Str)
    (h : ∀ e ∈ d.emergencies, e.getId ≠ id) :
    (d.updateEmergencyStatus w id s).1 = false ∧
    (d.updateEmergencyStatus w id s).2.1 = d ∧
    (d.updateEmergencyStatus w id s).2.1.emergencies = d.emergencies ∧
    (d.updateEmergencyStatus w id s).2.2.file = w.file ∧
    (d.updateEmergencyStatus w id s).2.2 = w := by
  simp [EmergencyDispatcher.updateEmergencyStatus, updateFirst_none id s d.emergencies h]

theorem updateEmergencyStatus_missing_witness :
    (∀ e ∈ (EmergencyDispatcher.mk [MedicalEmergency 5 [] [] 1 [] [] true]).emergencies,
      e.getId ≠ ['e', '5']) ∧
    ((EmergencyDispatcher.mk [MedicalEmergency 5 [] [] 1 [] [] true]).updateEmergencyStatus
        (World.mk (some ['x']) true []) ['e', '5'] ['o', 'k']).1 = false :=
  ⟨by decide,
   (updateEmergencyStatus_missing
      (EmergencyDispatcher.mk [MedicalEmergency 5 [] [] 1 [] [] true])
      (World.mk (some ['x']) true []) ['e', '5'] ['o', 'k'] (by decide)).1⟩

/-- C6: with the file openable for writing, after an `addEmergency` that
returns true and after an `updateEmergencyStatus` that returns true the whole
file content is the concatenation, in order, of `toFileString r` followed by
a line feed over the records then in memory, whatever the file held before. -/
theorem file_is_image_after_mutation (d : EmergencyDispatcher) (w : World)
    (hw : w.canWrite = true) :
    (∀ r, (d.addEmergency w r).1 = true →
      (d.addEmergency w r).2.2.file
        = some (fileImage (d.addEmergency w r).2.1.emergencies)) ∧
    (∀ id s, (d.updateEmergencyStatus w id s).1 = true →
      (d.updateEmergencyStatus w id s).2.2.file
        = some (fileImage (d.updateEmergencyStatus w id s).2.1.emergencies)) := by
  constructor
  · intro r hr
    by_cases hge : d.count ≥ MAX_EMERGENCIES
    · simp [EmergencyDispatcher.addEmergency, hge] at hr
    · simp [EmergencyDispatcher.addEmergency, hge, EmergencyDispatcher.saveToFile, hw,
        writeRecords_eq_fileImage]
  · intro id s hr
    cases hup : updateFirst id s d.emergencies with
    | none => simp [EmergencyDispatcher.updateEmergencyStatus, hup] at hr
    | some es =>
      simp [EmergencyDispatcher.updateEmergencyStatus, hup, EmergencyDispatcher.saveToFile, hw,
        writeRecords_eq_fileImage]

theorem file_is_image_after_mutation_witness :
    (World.mk (some ['o', 'l', 'd']) true []).canWrite = true ∧
    ((EmergencyDispatcher.mk []).addEmergency (World.mk (some ['o', 'l', 'd']) true [])
        (Emergency.mk ['E', '5'] ['a'] ['b'] 1 5 ['c'] Variant.general)).2.2.file
      = some "General,E5,a,b,1,c\n".toList :=
  ⟨rfl,
   (file_is_image_after_mutation (EmergencyDispatcher.mk [])
      (World.mk (some ['o', 'l', 'd']) true []) rfl).1
      (Emergency.mk ['E', '5'] ['a'] ['b'] 1 5 ['c'] Variant.general) rfl⟩

/-- C7: `toFileString` is the comma-joined line of type tag, id, location,
description, priority and status, followed by patientName, condition, urgent
for Medical; buildingType, severity, hazmat for Fire; crimeType, armed,
officersNeeded for Police; a boolean is written `1` or `0` and an integer as
its decimal text. -/
theorem toFileString_layout (id loc desc status : Str) (pri ts : Int) :
    (∀ (patientName condition : Str) (urgent : Bool),
      (Emergency.mk id loc desc pri ts status
          (Variant.medical patientName condition urgent)).toFileString
        = List.intercalate [','] ["Medical".toList, id, loc, desc, (toString pri).toList,
            status, patientName, condition, if urgent then ['1'] else ['0']]) ∧
    (∀ (buildingType : Str) (severity : Int) (hazmat : Bool),
      (Emergency.mk id loc desc pri ts status
          (Variant.fire buildingType severity hazmat)).toFileString
        = List.intercalate [','] ["Fire".toList, id, loc, desc, (toString pri).toList,
            status, buildingType, (toString severity).toList,
            if hazmat then ['1'] else ['0']]) ∧
    (∀ (crimeType : Str) (armed : Bool) (officersNeeded : Int),
      (Emergency.mk id loc desc pri ts status
          (Variant.police crimeType armed officersNeeded)).toFileString
        = List.intercalate [','] ["Police".toList, id, loc, desc, (toString pri).toList,
            status, crimeType, if armed then ['1'] else ['0'],
            (toString officersNeeded).toList]) := by
  refine ⟨?_, ?_, ?_⟩
  · intro patientName condition urgent
    rw [toFileString_medical, ← to_string_eq_toString]
    cases urgent <;> rfl
  · intro buildingType severity hazmat
    rw [toFileString_fire, ← to_string_eq_toString, ← to_string_eq_toString]
    cases hazmat <;> rfl
  · intro crimeType armed officersNeeded
    rw [toFileString_police, ← to_string_eq_toString, ← to_string_eq_toString]
    cases armed <;> rfl

/-! ## Properties of saving, constructing and loading -/

/-- C5: round trip. For a store of at most 100 Medical, Fire or Police
records whose free-text fields hold no comma and no line feed (records as the
program builds them: identifier made by the constructor, `int` fields in the
range of `int`), `saveToFile` followed by the construction of a new store
from the written file succeeds and gives the same number of records, in the
same order, each with the same type, location, description, priority, status
and variant fields. -/
theorem save_load_round_trip (clock : Nat → Int) (d : EmergencyDispatcher) (w : World)
    (hw : w.canWrite = true) (hcount : d.count ≤ 100)
    (hwf : ∀ e ∈ d.emergencies, e.WellFormed) (hp : ∀ e ∈ d.emergencies, e.Persistable) :
    ∃ d1, EmergencyDispatcher.create clock (d.saveToFile w) = Except.ok d1 ∧
      d1.count = d.count ∧
      List.Forall₂ Emergency.SameFields d1.emergencies d.emergencies :=
  ⟨{ emergencies := reloadAll clock 0 d.emergencies },
    create_after_save clock d w hw hcount hwf hp,
    reloadAll_length clock 0 d.emergencies,
    reloadAll_sameFields clock 0 d.emergencies⟩

theorem save_load_round_trip_witness :
    ∃ d1, EmergencyDispatcher.create (fun k => 1700000000 + k)
        ((EmergencyDispatcher.mk [
            MedicalEmergency 12345 "12 Elm St".toList "fall".toList 2 "Al Bo".toList
              "hip".toList false,
            FireEmergency 12346 "Dock 4".toList "smoke".toList 1 "Depot".toList (-3) true,
            PoliceEmergency 12347 "Bank".toList "".toList 5 "theft".toList true
              12]).saveToFile (World.mk none true [])) = Except.ok d1 ∧
      d1.count = (EmergencyDispatcher.mk [
            MedicalEmergency 12345 "12 Elm St".toList "fall".toList 2 "Al Bo".toList
              "hip".toList false,
            FireEmergency 12346 "Dock 4".toList "smoke".toList 1 "Depot".toList (-3) true,
            PoliceEmergency 12347 "Bank".toList "".toList 5 "theft".toList true
              12]).count ∧
      List.Forall₂ Emergency.SameFields d1.emergencies (EmergencyDispatcher.mk [
            MedicalEmergency 12345 "12 Elm St".toList "fall".toList 2 "Al Bo".toList
              "hip".toList false,
            FireEmergency 12346 "Dock 4".toList "smoke".toList 1 "Depot".toList (-3) true,
            PoliceEmergency 12347 "Bank".toList "".toList 5 "theft".toList true
              12]).emergencies :=
  save_load_round_trip (fun k => 1700000000 + k) _ (World.mk none true []) rfl (by decide)
    (by decide) (by decide)

/-- C8: a record constructed at clock reading `ts ≥ 0` has status `Pending`
and identifier `E` followed by the decimal text of `ts mod 10000`, and the
Medical record of the example serializes to
`Medical,E<ts mod 10000>,123 Main St,chest pain,1,Pending,Jane Doe,cardiac,1`. -/
theorem construct_at_clock (ts : Int) (h : 0 ≤ ts) :
    (∀ (loc desc : Str) (pri : Int) (v : Variant),
      (Emergency.construct ts loc desc pri v).status = "Pending".toList ∧
      (Emergency.construct ts loc desc pri v).id = 'E' :: (toString (ts % 10000)).toList) ∧
    (MedicalEmergency ts "123 Main St".toList "chest pain".toList 1 "Jane Doe".toList
        "cardiac".toList true).toFileString
      = "Medical,E".toList ++ (toString (ts % 10000)).toList
          ++ ",123 Main St,chest pain,1,Pending,Jane Doe,cardiac,1".toList := by
  have hmod : ts.tmod 10000 = ts % 10000 := Int.tmod_eq_emod h (by decide)
  constructor
  · intro loc desc pri v
    refine ⟨rfl, ?_⟩
    simp only [Emergency.construct, hmod, to_string_eq_toString]
  · have h1 : to_string 1 = "1".toList := by decide
    simp only [MedicalEmergency, Emergency.construct, toFileString_medical, hmod,
      to_string_eq_toString, intercalate_cons_cons, intercalate_single]
    rw [← to_string_eq_toString 1, h1]
    simp only [List.append_assoc]
    rfl

theorem construct_at_clock_witness :
    (0 : Int) ≤ 1700004242 ∧
    (MedicalEmergency 1700004242 "123 Main St".toList "chest pain".toList 1 "Jane Doe".toList
        "cardiac".toList true).toFileString
      = "Medical,E".toList ++ (toString ((1700004242 : Int) % 10000)).toList
          ++ ",123 Main St,chest pain,1,Pending,Jane Doe,cardiac,1".toList :=
  ⟨by decide, (construct_at_clock 1700004242 (by decide)).2⟩

/-- C9: constructing a store from a file whose only line is
`Fire,E42,Warehouse,smoke,2,Dispatched,Industrial,4,0` (with or without a
final line feed) yields exactly one record: a Fire record with location
`Warehouse`, description `smoke`, priority 2, status `Dispatched`,
buildingType `Industrial`, severity 4 and hazardousMaterials false. -/
theorem load_fire_example (clock : Nat → Int) (canWrite : Bool) (cerr : Str) :
    (∃ e, EmergencyDispatcher.create clock
          (World.mk (some "Fire,E42,Warehouse,smoke,2,Dispatched,Industrial,4,0".toList)
            canWrite cerr) = Except.ok { emergencies := [e] } ∧
        e.getType = "Fire".toList ∧ e.location = "Warehouse".toList ∧
        e.description = "smoke".toList ∧ e.priority = 2 ∧ e.status = "Dispatched".toList ∧
        e.variant = Variant.fire "Industrial".toList 4 false) ∧
    (∃ e, EmergencyDispatcher.create clock
          (World.mk (some "Fire,E42,Warehouse,smoke,2,Dispatched,Industrial,4,0\n".toList)
            canWrite cerr) = Except.ok { emergencies := [e] } ∧
        e.getType = "Fire".toList ∧ e.location = "Warehouse".toList ∧
        e.description = "smoke".toList ∧ e.priority = 2 ∧ e.status = "Dispatched".toList ∧
        e.variant = Variant.fire "Industrial".toList 4 false) :=
  ⟨⟨_, rfl, rfl, rfl, rfl, rfl, rfl, rfl⟩, ⟨_, rfl, rfl, rfl, rfl, rfl, rfl, rfl⟩⟩

/-- C10, as stated, fails: a line whose type field is `Unknown` is not
skipped when its priority field is not a number. For the line `Unknown` and
for the line `Unknown,E42,Warehouse,smoke,high,Dispatched,Industrial,4,0`
the type field is none of the three tags, and loading raises
`invalid_argument`. -/
theorem unknown_type_line_raises :
    typeField "Unknown".toList = "Unknown".toList ∧
    "Unknown".toList ≠ "Medical".toList ∧ "Unknown".toList ≠ "Fire".toList ∧
    "Unknown".toList ≠ "Police".toList ∧
    loadLine 0 "Unknown".toList = Except.error StoiError.invalid_argument ∧
    EmergencyDispatcher.create (fun _ => 0) (World.mk (some "Unknown\n".toList) true [])
      = Except.error StoiError.invalid_argument ∧
    typeField "Unknown,E42,Warehouse,smoke,high,Dispatched,Industrial,4,0".toList
      = "Unknown".toList ∧
    EmergencyDispatcher.create (fun _ => 0)
        (World.mk (some "Unknown,E42,Warehouse,smoke,high,Dispatched,Industrial,4,0\n".toList)
          true [])
      = Except.error StoiError.invalid_argument := by
  refine ⟨by decide, by decide, by decide, by decide, by decide, by decide, by decide,
    by decide⟩

/-- C10, amended: a line whose type field is none of `Medical`, `Fire`,
`Police` and whose priority field `std::stoi` accepts is skipped: the loop
body builds no record and raises nothing, and the loop goes on with the next
line from the same records. -/
theorem unknown_type_line_skipped (now : Int) (line : Str) (pri : Int)
    (hm : typeField line ≠ "Medical".toList) (hf : typeField line ≠ "Fire".toList)
    (hpo : typeField line ≠ "Police".toList)
    (hpri : stoi (priorityField line) = Except.ok pri) :
    loadLine now line = Except.ok none ∧
    ∀ (clock : Nat → Int) (rest : List Str) (es : List Emergency),
      loadLoop clock (line :: rest) es = loadLoop clock rest es := by
  have hskip : ∀ t, loadLine t line = Except.ok none := by
    intro t
    unfold typeField at hm hf hpo
    unfold priorityField at hpri
    cases h1 : nextField line with
    | mk type l1 =>
      cases h2 : nextField l1 with
      | mk id l2 =>
        cases h3 : nextField l2 with
        | mk loc l3 =>
          cases h4 : nextField l3 with
          | mk desc l4 =>
            cases h5 : nextField l4 with
            | mk ptext l5 =>
              simp only [h1, h2, h3, h4, h5] at hm hf hpo hpri
              exact loadLine_other_of t line type l1 id l2 loc l3 desc l4 ptext l5 pri
                h1 h2 h3 h4 h5 hpri hm hf hpo
  refine ⟨hskip now, ?_⟩
  intro clock rest es
  by_cases hlt : es.length < MAX_EMERGENCIES
  · simp only [loadLoop, hlt, if_true, hskip]
  · cases rest with
    | nil => simp only [loadLoop, hlt, if_false]
    | cons x xs => simp only [loadLoop, hlt, if_false]

theorem unknown_type_line_skipped_witness :
    loadLine 7 "Unknown,E42,Warehouse,smoke,2,Dispatched,Industrial,4,0".toList
      = Except.ok none :=
  (unknown_type_line_skipped 7 "Unknown,E42,Warehouse,smoke,2,Dispatched,Industrial,4,0".toList
    2 (by decide) (by decide) (by decide) (by decide)).1

/-! ## Supporting lemmas: what a loaded record can be -/

theorem find_some_take (s : Str) (c : Char) (p : Nat) (h : find s c = some p) :
    c ∉ s.take p := by
  induction s generalizing p with
  | nil => simp [find] at h
  | cons x xs ih =>
    by_cases hx : x = c
    · simp [find, hx] at h
      rw [← h]
      simp
    · simp only [find, hx, if_false] at h
      cases hf : find xs c with
      | none => simp [hf] at h
      | some q =>
        simp only [hf, Option.map_some', Option.some.injEq] at h
        rw [← h, List.take_succ_cons]
        intro hmem
        rcases List.mem_cons.mp hmem with h1 | h1
        · exact hx h1.symm
        · exact ih q hf h1

theorem find_none_not_mem (s : Str) (c : Char) (h : find s c = none) : c ∉ s := by
  induction s with
  | nil => simp
  | cons x xs ih =>
    by_cases hx : x = c
    · simp [find, hx] at h
    · simp only [find, hx, if_false] at h
      cases hf : find xs c with
      | none =>
        intro hmem
        rcases List.mem_cons.mp hmem with h1 | h1
        · exact hx h1.symm
        · exact ih hf h1
      | some q => simp [hf] at h

theorem nextField_fst_no_comma (line : Str) : ',' ∉ (nextField line).1 := by
  unfold nextField
  cases hf : find line ',' with
  | none => exact find_none_not_mem line ',' hf
  | some p => exact find_some_take line ',' p hf

theorem nextField_fst_subset (line : Str) (c : Char) (h : c ∈ (nextField line).1) :
    c ∈ line := by
  unfold nextField at h
  cases hf : find line ',' with
  | none => simpa [hf] using h
  | some p =>
    simp only [hf] at h
    exact List.mem_of_mem_take h

theorem nextField_snd_subset (line : Str) (c : Char) (h : c ∈ (nextField line).2) :
    c ∈ line := by
  unfold nextField at h
  cases hf : find line ',' with
  | none => simpa [hf] using h
  | some p =>
    simp only [hf] at h
    exact List.mem_of_mem_drop h

theorem stoi_ok_range (s : Str) (v : Int) (h : stoi s = Except.ok v) : InIntRange v := by
  unfold stoi at h
  dsimp only at h
  generalize (if (splitSign (List.dropWhile isSpace s)).1 = true then
      -(digitsValue (List.takeWhile Char.isDigit (splitSign (List.dropWhile isSpace s)).2) : Int)
    else (digitsValue (List.takeWhile Char.isDigit
      (splitSign (List.dropWhile isSpace s)).2) : Int)) = V at h
  by_cases he : (List.takeWhile Char.isDigit (splitSign (List.dropWhile isSpace s)).2).isEmpty
      = true
  · rw [if_pos he] at h
    cases h
  · rw [if_neg he] at h
    by_cases hr : INT_MIN ≤ V ∧ V ≤ INT_MAX
    · rw [if_pos hr] at h
      have hv := Except.ok.inj h
      rw [← hv]
      exact hr
    · rw [if_neg hr] at h
      cases h

theorem loadLine_fire_error_of (now : Int)
    (line l1 id l2 loc l3 desc l4 ptext l5 status l6 building l7 stext l8 : Str)
    (pri : Int) (err : StoiError)
    (h1 : nextField line = ("Fire".toList, l1)) (h2 : nextField l1 = (id, l2))
    (h3 : nextField l2 = (loc, l3)) (h4 : nextField l3 = (desc, l4))
    (h5 : nextField l4 = (ptext, l5)) (hp : stoi ptext = Except.ok pri)
    (h6 : nextField l5 = (status, l6)) (h7 : nextField l6 = (building, l7))
    (h8 : nextField l7 = (stext, l8)) (hs : stoi stext = Except.error err) :
    loadLine now line = Except.error err := by
  have hne : ¬ ("Fire".toList = "Medical".toList) := by decide
  have hb : loadFire now loc desc pri status l6 = Except.error err := by
    simp only [loadFire, h7, h8, hs]
  simp only [loadLine, h1, h2, h3, h4, h5, hp, h6, hne, if_true, if_false, hb]

theorem loadLine_police_error_of (now : Int)
    (line l1 id l2 loc l3 desc l4 ptext l5 status l6 crime l7 atext l8 : Str)
    (pri : Int) (err : StoiError)
    (h1 : nextField line = ("Police".toList, l1)) (h2 : nextField l1 = (id, l2))
    (h3 : nextField l2 = (loc, l3)) (h4 : nextField l3 = (desc, l4))
    (h5 : nextField l4 = (ptext, l5)) (hp : stoi ptext = Except.ok pri)
    (h6 : nextField l5 = (status, l6)) (h7 : nextField l6 = (crime, l7))
    (h8 : nextField l7 = (atext, l8)) (ho : stoi l8 = Except.error err) :
    loadLine now line = Except.error err := by
  have hne1 : ¬ ("Police".toList = "Medical".toList) := by decide
  have hne2 : ¬ ("Police".toList = "Fire".toList) := by decide
  have hb : loadPolice now loc desc pri status l6 = Except.error err := by
    simp only [loadPolice, h7, h8, ho]
  simp only [loadLine, h1, h2, h3, h4, h5, hp, h6, hne1, hne2, if_true, if_false, hb]

/-- The three outcomes of the loop body on a line. -/
theorem loadLine_cases (now : Int) (line : Str) :
    (∃ err, loadLine now line = Except.error err) ∨
    (loadLine now line = Except.ok none ∧ typeField line ≠ "Medical".toList ∧
      typeField line ≠ "Fire".toList ∧ typeField line ≠ "Police".toList) ∨
    (∃ e, loadLine now line = Except.ok (some e) ∧ LoadedFrom now line e) := by
  cases h1 : nextField line with
  | mk type l1 =>
  cases h2 : nextField l1 with
  | mk id l2 =>
  cases h3 : nextField l2 with
  | mk loc l3 =>
  cases h4 : nextField l3 with
  | mk desc l4 =>
  cases h5 : nextField l4 with
  | mk ptext l5 =>
  cases hp : stoi ptext with
  | error err =>
    exact Or.inl ⟨err, loadLine_priority_error now line type l1 id l2 loc l3 desc l4 ptext l5
      err h1 h2 h3 h4 h5 hp⟩
  | ok pri =>
  cases h6 : nextField l5 with
  | mk status l6 =>
  cases h7 : nextField l6 with
  | mk tok7 l7 =>
  cases h8 : nextField l7 with
  | mk tok8 l8 =>
  have htype : typeField line = type := by unfold typeField; rw [h1]
  have hpri : InIntRange pri := stoi_ok_range ptext pri hp
  have s1 : ∀ c ∈ l1, c ∈ line := fun c hc => nextField_snd_subset line c (by rw [h1]; exact hc)
  have s2 : ∀ c ∈ l2, c ∈ line := fun c hc => s1 c (nextField_snd_subset l1 c (by rw [h2]; exact hc))
  have s3 : ∀ c ∈ l3, c ∈ line := fun c hc => s2 c (nextField_snd_subset l2 c (by rw [h3]; exact hc))
  have s4 : ∀ c ∈ l4, c ∈ line := fun c hc => s3 c (nextField_snd_subset l3 c (by rw [h4]; exact hc))
  have s5 : ∀ c ∈ l5, c ∈ line := fun c hc => s4 c (nextField_snd_subset l4 c (by rw [h5]; exact hc))
  have s6 : ∀ c ∈ l6, c ∈ line := fun c hc => s5 c (nextField_snd_subset l5 c (by rw [h6]; exact hc))
  have s7 : ∀ c ∈ l7, c ∈ line := fun c hc => s6 c (nextField_snd_subset l6 c (by rw [h7]; exact hc))
  have cloc : ',' ∉ loc ∧ ∀ c ∈ loc, c ∈ line :=
    ⟨by have := nextField_fst_no_comma l2; rw [h3] at this; exact this,
     fun c hc => s2 c (nextField_fst_subset l2 c (by rw [h3]; exact hc))⟩
  have cdesc : ',' ∉ desc ∧ ∀ c ∈ desc, c ∈ line :=
    ⟨by have := nextField_fst_no_comma l3; rw [h4] at this; exact this,
     fun c hc => s3 c (nextField_fst_subset l3 c (by rw [h4]; exact hc))⟩
  have cstatus : ',' ∉ status ∧ ∀ c ∈ status, c ∈ line :=
    ⟨by have := nextField_fst_no_comma l5; rw [h6] at this; exact this,
     fun c hc => s5 c (nextField_fst_subset l5 c (by rw [h6]; exact hc))⟩
  have c7 : ',' ∉ tok7 ∧ ∀ c ∈ tok7, c ∈ line :=
    ⟨by have := nextField_fst_no_comma l6; rw [h7] at this; exact this,
     fun c hc => s6 c (nextField_fst_subset l6 c (by rw [h7]; exact hc))⟩
  have c8 : ',' ∉ tok8 ∧ ∀ c ∈ tok8, c ∈ line :=
    ⟨by have := nextField_fst_no_comma l7; rw [h8] at this; exact this,
     fun c hc => s7 c (nextField_fst_subset l7 c (by rw [h8]; exact hc))⟩
  by_cases hm : type = "Medical".toList
  · subst hm
    refine Or.inr (Or.inr ⟨_, loadLine_medical_of now line l1 id l2 loc l3 desc l4 ptext l5
      status l6 tok7 l7 tok8 l8 pri h1 h2 h3 h4 h5 hp h6 h7 h8, rfl, rfl, ?_, ?_, ?_, ?_⟩)
    · rw [htype]; rfl
    · intro h; cases h
    · intro i hi
      simp only [Emergency.intFields, List.mem_singleton] at hi
      rw [hi]; exact hpri
    · intro t ht
      simp only [Emergency.textFields, List.cons_append, List.nil_append, List.mem_cons,
        List.mem_singleton, List.not_mem_nil, or_false] at ht
      rcases ht with h | h | h | h | h <;> (rw [h]; assumption)
  · by_cases hf : type = "Fire".toList
    · subst hf
      cases hs : stoi tok8 with
      | error err =>
        exact Or.inl ⟨err, loadLine_fire_error_of now line l1 id l2 loc l3 desc l4 ptext l5
          status l6 tok7 l7 tok8 l8 pri err h1 h2 h3 h4 h5 hp h6 h7 h8 hs⟩
      | ok sev =>
        have hsev : InIntRange sev := stoi_ok_range tok8 sev hs
        refine Or.inr (Or.inr ⟨_, loadLine_fire_of now line l1 id l2 loc l3 desc l4 ptext l5
          status l6 tok7 l7 tok8 l8 pri sev h1 h2 h3 h4 h5 hp h6 h7 h8 hs,
          rfl, rfl, ?_, ?_, ?_, ?_⟩)
        · rw [htype]; rfl
        · intro h; cases h
        · intro i hi
          simp only [Emergency.intFields, List.mem_cons, List.mem_singleton,
            List.not_mem_nil, or_false] at hi
          rcases hi with h | h <;> (rw [h]; assumption)
        · intro t ht
          simp only [Emergency.textFields, List.cons_append, List.nil_append, List.mem_cons,
            List.mem_singleton, List.not_mem_nil, or_false] at ht
          rcases ht with h | h | h | h <;> (rw [h]; assumption)
    · by_cases hpo : type = "Police".toList
      · subst hpo
        cases ho : stoi l8 with
        | error err =>
          exact Or.inl ⟨err, loadLine_police_error_of now line l1 id l2 loc l3 desc l4 ptext
            l5 status l6 tok7 l7 tok8 l8 pri err h1 h2 h3 h4 h5 hp h6 h7 h8 ho⟩
        | ok off =>
          have hoff : InIntRange off := stoi_ok_range l8 off ho
          refine Or.inr (Or.inr ⟨_, loadLine_police_of now line l1 id l2 loc l3 desc l4 ptext
            l5 status l6 tok7 l7 tok8 l8 pri off h1 h2 h3 h4 h5 hp h6 h7 h8 ho,
            rfl, rfl, ?_, ?_, ?_, ?_⟩)
          · rw [htype]; rfl
          · intro h; cases h
          · intro i hi
            simp only [Emergency.intFields, List.mem_cons, List.mem_singleton,
              List.not_mem_nil, or_false] at hi
            rcases hi with h | h <;> (rw [h]; assumption)
          · intro t ht
            simp only [Emergency.textFields, List.cons_append, List.nil_append, List.mem_cons,
              List.mem_singleton, List.not_mem_nil, or_false] at ht
            rcases ht with h | h | h | h <;> (rw [h]; assumption)
      · refine Or.inr (Or.inl ⟨loadLine_other_of now line type l1 id l2 loc l3 desc l4 ptext
          l5 pri h1 h2 h3 h4 h5 hp hm hf hpo, ?_, ?_, ?_⟩) <;> (rw [htype]; assumption)

/-! ## Supporting lemmas: identifiers and the stored id -/

theorem typeField_toFileString (e : Emergency) (hv : e.variant ≠ Variant.general) :
    typeField e.toFileString = e.getType ∧
    (e.getType = "Medical".toList ∨ e.getType = "Fire".toList ∨ e.getType = "Police".toList) := by
  cases e with
  | mk id loc desc pri ts status v =>
    cases v with
    | general => exact absurd rfl hv
    | medical patientName condition urgent =>
      refine ⟨?_, Or.inl rfl⟩
      unfold typeField
      rw [toFileString_medical, nextField_intercalate _ _ _ (by decide)]
      rfl
    | fire buildingType severity hazmat =>
      refine ⟨?_, Or.inr (Or.inl rfl)⟩
      unfold typeField
      rw [toFileString_fire, nextField_intercalate _ _ _ (by decide)]
      rfl
    | police crimeType armed officersNeeded =>
      refine ⟨?_, Or.inr (Or.inr rfl)⟩
      unfold typeField
      rw [toFileString_police, nextField_intercalate _ _ _ (by decide)]
      rfl

theorem sameFields_textFields (a b : Emergency) (h : a.SameFields b) :
    a.textFields = b.textFields := by
  obtain ⟨_, hl, hd, _, hs, hv⟩ := h
  unfold Emergency.textFields
  rw [hl, hd, hs, hv]

theorem loadLine_congr (now : Int) (line line1 type l1 l1a id ida l2 : Str)
    (h1 : nextField line = (type, l1)) (h2 : nextField l1 = (id, l2))
    (h1a : nextField line1 = (type, l1a)) (h2a : nextField l1a = (ida, l2)) :
    loadLine now line = loadLine now line1 := by
  cases h3 : nextField l2 with
  | mk loc l3 =>
  cases h4 : nextField l3 with
  | mk desc l4 =>
  cases h5 : nextField l4 with
  | mk ptext l5 =>
  cases hp : stoi ptext with
  | error err =>
    rw [loadLine_priority_error now line type l1 id l2 loc l3 desc l4 ptext l5 err
        h1 h2 h3 h4 h5 hp,
      loadLine_priority_error now line1 type l1a ida l2 loc l3 desc l4 ptext l5 err
        h1a h2a h3 h4 h5 hp]
  | ok pri =>
    cases h6 : nextField l5 with
    | mk status l6 =>
      simp only [loadLine, h1, h2, h1a, h2a, h3, h4, h5, hp, h6]

theorem natToString_injective (m n : Nat) (h : natToString m = natToString n) : m = n := by
  have := congrArg digitsValue h
  rwa [digitsValue_natToString, digitsValue_natToString] at this

theorem to_string_injective (x y : Int) (h : to_string x = to_string y) : x = y := by
  unfold to_string at h
  have hminus : ∀ n, '-' ∉ natToString n := by
    intro n hmem
    have := natToString_isDigit n '-' hmem
    revert this; decide
  by_cases hx : x < 0 <;> by_cases hy : y < 0
  · simp only [hx, hy, if_true] at h
    have := natToString_injective _ _ (List.cons.inj h).2
    omega
  · simp only [hx, hy, if_true, if_false] at h
    exact absurd (by rw [← h]; exact List.mem_cons_self _ _) (hminus y.natAbs)
  · simp only [hx, hy, if_true, if_false] at h
    exact absurd (by rw [h]; exact List.mem_cons_self _ _) (hminus x.natAbs)
  · simp only [hx, hy, if_false] at h
    have := natToString_injective _ _ h
    omega

theorem loadLine_id (now : Int) (line : Str) (e : Emergency)
    (h : loadLine now line = Except.ok (some e)) : LoadedFrom now line e := by
  rcases loadLine_cases now line with ⟨err, he⟩ | ⟨hn, _⟩ | ⟨e1, he, hl⟩
  · rw [he] at h; cases h
  · rw [hn] at h; cases h
  · rw [he] at h
    cases h
    exact hl

/-! ## Properties of lines with commas and of the stored identifier -/

/-- C11: for a Medical, Fire or Police record with a comma in at least one
free-text field, loading the line written by `toFileString` either raises a
conversion error of `std::stoi` or builds a record that differs from the
original in the type, location, description, priority, status or variant
fields; it never reproduces the record and never skips the line. -/
theorem comma_field_not_reproduced (now : Int) (e : Emergency)
    (hv : e.variant ≠ Variant.general) (hc : ∃ t ∈ e.textFields, ',' ∈ t) :
    (∃ err, loadLine now e.toFileString = Except.error err) ∨
    (∃ e1, loadLine now e.toFileString = Except.ok (some e1) ∧ ¬ e1.SameFields e) := by
  rcases loadLine_cases now e.toFileString with ⟨err, he⟩ | ⟨_, hm, hf, hpo⟩ | ⟨e1, he, hl⟩
  · exact Or.inl ⟨err, he⟩
  · obtain ⟨ht, hty⟩ := typeField_toFileString e hv
    rw [ht] at hm hf hpo
    rcases hty with h | h | h
    · exact absurd h hm
    · exact absurd h hf
    · exact absurd h hpo
  · refine Or.inr ⟨e1, he, ?_⟩
    intro hsame
    obtain ⟨t, ht, hcomma⟩ := hc
    rw [← sameFields_textFields e1 e hsame] at ht
    exact (hl.2.2.2.2.2 t ht).1 hcomma

theorem comma_field_not_reproduced_witness :
    (∃ err, loadLine 5 (MedicalEmergency 5 "Main St, 4".toList "fall".toList 2 "Al".toList
        "hip".toList true).toFileString = Except.error err) ∨
    (∃ e1, loadLine 5 (MedicalEmergency 5 "Main St, 4".toList "fall".toList 2 "Al".toList
        "hip".toList true).toFileString = Except.ok (some e1) ∧
      ¬ e1.SameFields (MedicalEmergency 5 "Main St, 4".toList "fall".toList 2 "Al".toList
        "hip".toList true)) :=
  comma_field_not_reproduced 5 (MedicalEmergency 5 "Main St, 4".toList "fall".toList 2
    "Al".toList "hip".toList true) (by decide) ⟨"Main St, 4".toList, by decide, by decide⟩

/-- C12, as stated, fails: the lines `Fire,7` and `Fire,8` have the same
first field and differ only in their second field, yet at the same clock
reading they load as different records: the stored id text is read again as
location, description, priority, status, buildingType and severity. -/
theorem stored_id_reaches_short_line :
    typeField "Fire,7".toList = typeField "Fire,8".toList ∧
    fieldAt 1 "Fire,7".toList = "7".toList ∧ fieldAt 1 "Fire,8".toList = "8".toList ∧
    loadLine 5 "Fire,7".toList
      = Except.ok (some (Emergency.mk "E5".toList "7".toList "7".toList 7 5 "7".toList
          (Variant.fire "7".toList 7 false))) ∧
    loadLine 5 "Fire,8".toList
      = Except.ok (some (Emergency.mk "E5".toList "8".toList "8".toList 8 5 "8".toList
          (Variant.fire "8".toList 8 false))) ∧
    loadLine 5 "Fire,7".toList ≠ loadLine 5 "Fire,8".toList := by
  refine ⟨by decide, by decide, by decide, by decide, by decide, by decide⟩

/-- C12, amended: two lines with the same first field and the same text
after the comma that ends the second field, differing only in that second
(id) field, give the same outcome of the loop body at the same clock reading
`t`; and the id of every loaded record is `E` followed by the decimal text of
the C++ remainder `t % 10000`, which for `t ≥ 0` is `t mod 10000`. -/
theorem stored_id_discarded (t : Int) (type id1 id2 rest : Str)
    (htype : ',' ∉ type) (hid1 : ',' ∉ id1) (hid2 : ',' ∉ id2) :
    loadLine t (type ++ ',' :: (id1 ++ ',' :: rest))
      = loadLine t (type ++ ',' :: (id2 ++ ',' :: rest)) ∧
    (∀ line e, loadLine t line = Except.ok (some e) →
      e.id = 'E' :: to_string (t.tmod 10000) ∧
      (0 ≤ t → e.id = 'E' :: (toString (t % 10000)).toList)) := by
  constructor
  · exact loadLine_congr t _ _ type _ _ id1 id2 rest
      (nextField_append type _ htype) (nextField_append id1 rest hid1)
      (nextField_append type _ htype) (nextField_append id2 rest hid2)
  · intro line e h
    have hid := (loadLine_id t line e h).1
    refine ⟨hid, fun ht => ?_⟩
    rw [hid, Int.tmod_eq_emod ht (by decide), to_string_eq_toString]

theorem stored_id_discarded_witness :
    loadLine 1700000000 ("Fire".toList ++ ',' :: ("E42".toList ++ ',' ::
        "Warehouse,smoke,2,Dispatched,Industrial,4,0".toList))
      = loadLine 1700000000 ("Fire".toList ++ ',' :: ("E9999".toList ++ ',' ::
        "Warehouse,smoke,2,Dispatched,Industrial,4,0".toList)) :=
  (stored_id_discarded 1700000000 "Fire".toList "E42".toList "E9999".toList
    "Warehouse,smoke,2,Dispatched,Industrial,4,0".toList (by decide) (by decide)
    (by decide)).1

/-- C13, as stated, fails: at a clock reading whose remainder modulo 10000 is
42, here 1700000042, the record rebuilt from the line
`Fire,E42,Warehouse,smoke,2,Dispatched,Industrial,4,0` has the id `E42`. -/
theorem fresh_id_can_be_E42 :
    EmergencyDispatcher.create (fun _ => 1700000042)
        (World.mk (some "Fire,E42,Warehouse,smoke,2,Dispatched,Industrial,4,0\n".toList)
          true [])
      = Except.ok { emergencies := [Emergency.mk "E42".toList "Warehouse".toList
          "smoke".toList 2 1700000042 "Dispatched".toList
          (Variant.fire "Industrial".toList 4 false)] } := by
  decide

/-- C13, amended: for every clock reading `t` at load time whose C++
remainder `t % 10000` is not 42, the record rebuilt from the line
`Fire,E42,Warehouse,smoke,2,Dispatched,Industrial,4,0` carries the freshly
generated id `E` followed by the decimal text of `t % 10000`, and that id is
different from `E42`. -/
theorem fresh_id_differs_from_E42 (clock : Nat → Int) (canWrite : Bool) (cerr : Str)
    (h : (clock 0).tmod 10000 ≠ 42) :
    ∃ e, EmergencyDispatcher.create clock
          (World.mk (some "Fire,E42,Warehouse,smoke,2,Dispatched,Industrial,4,0\n".toList)
            canWrite cerr) = Except.ok { emergencies := [e] } ∧
      e.id = 'E' :: to_string ((clock 0).tmod 10000) ∧ e.id ≠ "E42".toList := by
  refine ⟨_, rfl, rfl, ?_⟩
  intro hid
  have h42 : to_string 42 = "42".toList := by decide
  have hcons : to_string ((clock 0).tmod 10000) = to_string 42 := by
    rw [h42]
    exact (List.cons.inj hid).2
  exact h (to_string_injective _ _ hcons)

theorem fresh_id_differs_from_E42_witness :
    ∃ e, EmergencyDispatcher.create (fun _ => 1700000043)
          (World.mk (some "Fire,E42,Warehouse,smoke,2,Dispatched,Industrial,4,0\n".toList)
            true []) = Except.ok { emergencies := [e] } ∧
      e.id = 'E' :: to_string ((1700000043 : Int).tmod 10000) ∧ e.id ≠ "E42".toList :=
  fresh_id_differs_from_E42 (fun _ => 1700000043) true [] (by decide)

/-! ## Supporting lemmas: the capacity and the loop -/

theorem loadLoop_full (clock : Nat → Int) (lines : List Str) (acc : List Emergency)
    (h : ¬ acc.length < MAX_EMERGENCIES) : loadLoop clock lines acc = Except.ok acc := by
  cases lines with
  | nil => rfl
  | cons l ls => simp only [loadLoop, h, if_false]

theorem loadLoop_cons_some (clock : Nat → Int) (line : Str) (rest : List Str)
    (acc : List Emergency) (e : Emergency) (hlt : acc.length < MAX_EMERGENCIES)
    (h : loadLine (clock acc.length) line = Except.ok (some e)) :
    loadLoop clock (line :: rest) acc = loadLoop clock rest (acc ++ [e]) := by
  simp only [loadLoop, hlt, if_true, h]

theorem loadLoop_cons_none (clock : Nat → Int) (line : Str) (rest : List Str)
    (acc : List Emergency) (hlt : acc.length < MAX_EMERGENCIES)
    (h : loadLine (clock acc.length) line = Except.ok none) :
    loadLoop clock (line :: rest) acc = loadLoop clock rest acc := by
  simp only [loadLoop, hlt, if_true, h]

theorem loadLoop_cons_error (clock : Nat → Int) (line : Str) (rest : List Str)
    (acc : List Emergency) (err : StoiError) (hlt : acc.length < MAX_EMERGENCIES)
    (h : loadLine (clock acc.length) line = Except.error err) :
    loadLoop clock (line :: rest) acc = Except.error err := by
  simp only [loadLoop, hlt, if_true, h]

/-- Whatever holds of the records held before the loop and of every record
the loop body builds from one of the lines holds of all records after the
loop; and the loop never goes beyond the capacity. -/
theorem loadLoop_invariant (clock : Nat → Int) (P : Emergency → Prop) (lines : List Str)
    (acc es : List Emergency)
    (hP : ∀ k, ∀ line ∈ lines, ∀ e, loadLine (clock k) line = Except.ok (some e) → P e)
    (hacc : ∀ e ∈ acc, P e) (hlen : acc.length ≤ MAX_EMERGENCIES)
    (h : loadLoop clock lines acc = Except.ok es) :
    (∀ e ∈ es, P e) ∧ es.length ≤ MAX_EMERGENCIES := by
  induction lines generalizing acc with
  | nil =>
    simp only [loadLoop] at h
    cases h
    exact ⟨hacc, hlen⟩
  | cons line rest ih =>
    have hrest : ∀ k, ∀ l ∈ rest, ∀ e, loadLine (clock k) l = Except.ok (some e) → P e :=
      fun k l hl e he => hP k l (List.mem_cons_of_mem line hl) e he
    by_cases hlt : acc.length < MAX_EMERGENCIES
    · cases hline : loadLine (clock acc.length) line with
      | error err =>
        rw [loadLoop_cons_error clock line rest acc err hlt hline] at h
        cases h
      | ok r =>
        cases r with
        | none =>
          rw [loadLoop_cons_none clock line rest acc hlt hline] at h
          exact ih acc hrest hacc hlen h
        | some e =>
          rw [loadLoop_cons_some clock line rest acc e hlt hline] at h
          refine ih (acc ++ [e]) hrest ?_ ?_ h
          · intro x hx
            rcases List.mem_append.mp hx with h1 | h1
            · exact hacc x h1
            · rw [List.mem_singleton.mp h1]
              exact hP acc.length line (List.mem_cons_self line rest) e hline
          · simp only [List.length_append, List.length_cons, List.length_nil]
            omega
    · rw [loadLoop_full clock (line :: rest) acc hlt] at h
      cases h
      exact ⟨hacc, hlen⟩

theorem loadLoop_valid (clock : Nat → Int) (lines : List Str) (acc : List Emergency)
    (hv : ∀ l ∈ lines, ValidLine l) (hlen : acc.length + lines.length ≤ MAX_EMERGENCIES) :
    ∃ es, loadLoop clock lines acc = Except.ok es ∧ es.length = acc.length + lines.length := by
  induction lines generalizing acc with
  | nil => exact ⟨acc, rfl, rfl⟩
  | cons line rest ih =>
    have hlt : acc.length < MAX_EMERGENCIES := by
      simp only [List.length_cons] at hlen
      omega
    obtain ⟨e, he⟩ := hv line (List.mem_cons_self line rest) (clock acc.length)
    obtain ⟨es, hes, hl⟩ := ih (acc ++ [e])
      (fun l hl => hv l (List.mem_cons_of_mem line hl))
      (by simp only [List.length_append, List.length_cons, List.length_nil] at hlen ⊢; omega)
    refine ⟨es, ?_, ?_⟩
    · rw [loadLoop_cons_some clock line rest acc e hlt he]
      exact hes
    · rw [hl]
      simp only [List.length_append, List.length_cons, List.length_nil]
      omega

theorem loadLoop_append (clock : Nat → Int) (l1 l2 : List Str) (acc es : List Emergency)
    (h : loadLoop clock l1 acc = Except.ok es) :
    loadLoop clock (l1 ++ l2) acc = loadLoop clock l2 es := by
  induction l1 generalizing acc with
  | nil =>
    simp only [loadLoop] at h
    cases h
    rfl
  | cons line rest ih =>
    by_cases hlt : acc.length < MAX_EMERGENCIES
    · cases hline : loadLine (clock acc.length) line with
      | error err =>
        rw [loadLoop_cons_error clock line rest acc err hlt hline] at h
        cases h
      | ok r =>
        cases r with
        | none =>
          rw [loadLoop_cons_none clock line rest acc hlt hline] at h
          rw [List.cons_append, loadLoop_cons_none clock line (rest ++ l2) acc hlt hline]
          exact ih acc h
        | some e =>
          rw [loadLoop_cons_some clock line rest acc e hlt hline] at h
          rw [List.cons_append, loadLoop_cons_some clock line (rest ++ l2) acc e hlt hline]
          exact ih (acc ++ [e]) h
    · rw [loadLoop_full clock (line :: rest) acc hlt] at h
      cases h
      rw [loadLoop_full clock _ _ hlt, loadLoop_full clock l2 _ hlt]

theorem updateFirst_length (id status : Str) (es es1 : List Emergency)
    (h : updateFirst id status es = some es1) : es1.length = es.length := by
  induction es generalizing es1 with
  | nil => simp [updateFirst] at h
  | cons e es ih =>
    by_cases hid : e.getId = id
    · simp only [updateFirst, hid, if_true, Option.some.injEq] at h
      rw [← h]
      rfl
    · simp only [updateFirst, hid, if_false] at h
      cases hu : updateFirst id status es with
      | none => simp [hu] at h
      | some es2 =>
        simp only [hu, Option.map_some', Option.some.injEq] at h
        rw [← h, List.length_cons, List.length_cons, ih es2 hu]

theorem create_count_le (clock : Nat → Int) (w : World) (d : EmergencyDispatcher)
    (h : EmergencyDispatcher.create clock w = Except.ok d) : d.count ≤ MAX_EMERGENCIES := by
  unfold EmergencyDispatcher.create EmergencyDispatcher.loadFromFile at h
  cases hf : w.file with
  | none =>
    simp only [hf] at h
    cases h
    exact Nat.zero_le _
  | some content =>
    simp only [hf] at h
    cases hl : loadLoop clock (fileLines content) [] with
    | error err =>
      rw [hl] at h
      cases h
    | ok es =>
      rw [hl] at h
      cases h
      exact (loadLoop_invariant clock (fun _ => True) (fileLines content) [] es
        (fun _ _ _ _ _ => trivial) (fun _ _ => trivial) (Nat.zero_le _) hl).2

theorem addEmergency_count_le (d : EmergencyDispatcher) (w : World) (e : Emergency)
    (h : d.count ≤ MAX_EMERGENCIES) : (d.addEmergency w e).2.1.count ≤ MAX_EMERGENCIES := by
  by_cases hge : d.count ≥ MAX_EMERGENCIES
  · simp only [EmergencyDispatcher.addEmergency, hge, if_true]
    exact h
  · have hres : (d.addEmergency w e).2.1 = { emergencies := d.emergencies ++ [e] } := by
      simp only [EmergencyDispatcher.addEmergency, hge, if_false]
    rw [hres]
    unfold EmergencyDispatcher.count at hge ⊢
    simp only [List.length_append, List.length_cons, List.length_nil]
    omega

theorem updateEmergencyStatus_count (d : EmergencyDispatcher) (w : World) (id status : Str) :
    (d.updateEmergencyStatus w id status).2.1.count = d.count := by
  unfold EmergencyDispatcher.updateEmergencyStatus
  cases hu : updateFirst id status d.emergencies with
  | none => rfl
  | some es => exact updateFirst_length id status d.emergencies es hu

theorem reachable_count_le (d : EmergencyDispatcher) (h : Reachable d) :
    d.count ≤ MAX_EMERGENCIES := by
  induction h with
  | create clock w d hc => exact create_count_le clock w d hc
  | add d w e _ ih => exact addEmergency_count_le d w e ih
  | update d w id status _ ih =>
    rw [updateEmergencyStatus_count]
    exact ih

theorem displayAll_foldl (es : List Emergency) (out : Str) :
    es.foldl (fun out e => out ++ e.display) out
      = out ++ (es.map Emergency.display).flatten := by
  induction es generalizing out with
  | nil => simp
  | cons e es ih =>
    rw [List.foldl_cons, ih]
    simp [List.append_assoc]

theorem display_head (e : Emergency) :
    ∃ rest, e.display = "Emergency ID: ".toList ++ rest := by
  cases e with
  | mk id loc desc pri ts status v =>
    cases v <;>
      (simp only [Emergency.display, Emergency.baseDisplay, List.append_assoc]
       exact ⟨_, rfl⟩)

/-! ## Properties of the capacity and of the listing -/

/-- C14: in every reachable state of the store (constructor with
`loadFromFile`, then any calls of `addEmergency` and `updateEmergencyStatus`)
the count is at most 100; and when the file has more than 100 lines of which
the first 100 are valid, construction yields exactly 100 records, namely the
records of the first 100 lines. -/
theorem count_never_exceeds_capacity :
    (∀ d, Reachable d → d.count ≤ 100) ∧
    (∀ (clock : Nat → Int) (w : World) (content : Str), w.file = some content →
      100 < (fileLines content).length →
      (∀ l ∈ (fileLines content).take 100, ValidLine l) →
      ∃ d, EmergencyDispatcher.create clock w = Except.ok d ∧ d.count = 100 ∧
        loadLoop clock ((fileLines content).take 100) [] = Except.ok d.emergencies) := by
  refine ⟨reachable_count_le, ?_⟩
  intro clock w content hfile hlen hvalid
  have htake : ((fileLines content).take 100).length = 100 := by
    rw [List.length_take]
    omega
  obtain ⟨es, hes, hl⟩ := loadLoop_valid clock ((fileLines content).take 100) [] hvalid
    (by rw [htake]; exact Nat.le_refl _)
  have hfull : ¬ es.length < MAX_EMERGENCIES := by
    rw [hl, htake]
    decide
  have hall : loadLoop clock (fileLines content) [] = Except.ok es := by
    rw [← List.take_append_drop 100 (fileLines content),
      loadLoop_append clock _ _ [] es hes]
    exact loadLoop_full clock _ es hfull
  refine ⟨{ emergencies := es }, ?_, ?_, hes⟩
  · simp only [EmergencyDispatcher.create, EmergencyDispatcher.loadFromFile, hfile, hall]
  · simp only [EmergencyDispatcher.count, hl, htake, List.length_nil, Nat.zero_add]

theorem count_never_exceeds_capacity_witness :
    (Reachable ((EmergencyDispatcher.mk []).addEmergency (World.mk none true [])
        (MedicalEmergency 5 [] [] 1 [] [] true)).2.1 ∧
      ((EmergencyDispatcher.mk []).addEmergency (World.mk none true [])
        (MedicalEmergency 5 [] [] 1 [] [] true)).2.1.count ≤ 100) ∧
    (∃ d, EmergencyDispatcher.create (fun k => 1700000000 + k)
        (World.mk (some (List.replicate 101 "Fire,1\n".toList).flatten) false [])
        = Except.ok d ∧ d.count = 100) := by
  have hreach : Reachable ((EmergencyDispatcher.mk []).addEmergency (World.mk none true [])
      (MedicalEmergency 5 [] [] 1 [] [] true)).2.1 :=
    Reachable.add _ _ _ (Reachable.create (fun _ => 0) (World.mk none true []) _ rfl)
  have hl : fileLines (List.replicate 101 "Fire,1\n".toList).flatten
      = List.replicate 101 "Fire,1".toList := by decide
  have hv : ∀ l ∈ (fileLines (List.replicate 101 "Fire,1\n".toList).flatten).take 100,
      ValidLine l := by
    intro l hmem
    rw [hl] at hmem
    have hline : l = "Fire,1".toList := by
      simp only [List.take_replicate] at hmem
      exact (List.mem_replicate.mp hmem).2
    rw [hline]
    exact fun now => ⟨_, rfl⟩
  obtain ⟨d, h1, h2, _⟩ := count_never_exceeds_capacity.2 (fun k => 1700000000 + k)
    (World.mk (some (List.replicate 101 "Fire,1\n".toList).flatten) false []) _ rfl
    (by rw [hl]; simp) hv
  exact ⟨⟨hreach, count_never_exceeds_capacity.1 _ hreach⟩, d, h1, h2⟩

/-- C15: on a store with no record `displayAllEmergencies` writes exactly
`No emergencies recorded.` and a line feed; on a store with records it writes
the concatenation of `display()` of the records in insertion order, which
begins with `Emergency ID: ` and so is not that message. -/
theorem displayAllEmergencies_output (d : EmergencyDispatcher) :
    (d.count = 0 → d.displayAllEmergencies = "No emergencies recorded.\n".toList) ∧
    (d.count ≠ 0 →
      d.displayAllEmergencies = (d.emergencies.map Emergency.display).flatten ∧
      (∃ rest, d.displayAllEmergencies = "Emergency ID: ".toList ++ rest) ∧
      d.displayAllEmergencies ≠ "No emergencies recorded.\n".toList) := by
  constructor
  · intro h
    simp only [EmergencyDispatcher.displayAllEmergencies, h, if_true]
  · intro h
    have hout : d.displayAllEmergencies = (d.emergencies.map Emergency.display).flatten := by
      simp only [EmergencyDispatcher.displayAllEmergencies, h, if_false, displayAll_foldl,
        List.nil_append]
    have hhead : ∃ rest, d.displayAllEmergencies = "Emergency ID: ".toList ++ rest := by
      rw [hout]
      cases hes : d.emergencies with
      | nil =>
        exact absurd (by simp [EmergencyDispatcher.count, hes]) h
      | cons e es =>
        obtain ⟨r, hr⟩ := display_head e
        exact ⟨r ++ (es.map Emergency.display).flatten, by
          simp only [List.map_cons, List.flatten_cons, hr, List.append_assoc]⟩
    refine ⟨hout, hhead, ?_⟩
    obtain ⟨rest, hrest⟩ := hhead
    rw [hrest]
    intro heq
    have hh := congrArg List.head? heq
    have h1 : ("Emergency ID: ".toList ++ rest).head? = some 'E' := rfl
    have h2 : "No emergencies recorded.\n".toList.head? = some 'N' := rfl
    rw [h1, h2] at hh
    exact absurd hh (by decide)

theorem displayAllEmergencies_output_witness :
    (EmergencyDispatcher.mk []).displayAllEmergencies = "No emergencies recorded.\n".toList ∧
    (EmergencyDispatcher.mk [FireEmergency 7 ['a'] ['b'] 1 ['c'] 2 false]).displayAllEmergencies
      = ((EmergencyDispatcher.mk [FireEmergency 7 ['a'] ['b'] 1 ['c'] 2
          false]).emergencies.map Emergency.display).flatten :=
  ⟨(displayAllEmergencies_output (EmergencyDispatcher.mk [])).1 rfl,
   ((displayAllEmergencies_output
      (EmergencyDispatcher.mk [FireEmergency 7 ['a'] ['b'] 1 ['c'] 2 false])).2
      (by decide)).1⟩

/-! ## Supporting lemmas: text that is no integer -/

theorem stoi_invalid_of_no_digit (s : Str)
    (h : (List.takeWhile Char.isDigit (splitSign (s.dropWhile isSpace)).2).isEmpty = true) :
    stoi s = Except.error StoiError.invalid_argument := by
  unfold stoi
  dsimp only
  rw [if_pos h]

theorem stoi_not_invalid_of_digit (s : Str)
    (h : (List.takeWhile Char.isDigit (splitSign (s.dropWhile isSpace)).2).isEmpty = false) :
    stoi s ≠ Except.error StoiError.invalid_argument := by
  unfold stoi
  dsimp only
  rw [h]
  simp only [Bool.false_eq_true, if_false]
  generalize (if (splitSign (List.dropWhile isSpace s)).1 = true then
      -(digitsValue (List.takeWhile Char.isDigit (splitSign (List.dropWhile isSpace s)).2) : Int)
    else (digitsValue (List.takeWhile Char.isDigit
      (splitSign (List.dropWhile isSpace s)).2) : Int)) = V
  by_cases hr : INT_MIN ≤ V ∧ V ≤ INT_MAX
  · rw [if_pos hr]
    intro hc; cases hc
  · rw [if_neg hr]
    intro hc; cases hc

theorem takeWhile_isDigit_empty (t : Str) (h : ∀ d r, t = d :: r → d.isDigit = false) :
    (List.takeWhile Char.isDigit t).isEmpty = true := by
  cases t with
  | nil => rfl
  | cons d r =>
    have hd := h d r rfl
    simp [List.takeWhile, hd]

/-- Text that does not start with an integer makes `std::stoi` throw
`invalid_argument`. -/
theorem stoi_of_not_startsWithInteger (s : Str) (h : ¬ StartsWithInteger s) :
    stoi s = Except.error StoiError.invalid_argument := by
  have hs : s = List.takeWhile isSpace s ++ List.dropWhile isSpace s :=
    (List.takeWhile_append_dropWhile isSpace s).symm
  have hws : ∀ c ∈ List.takeWhile isSpace s, isSpace c = true :=
    fun c hc => List.mem_takeWhile_imp hc
  apply stoi_invalid_of_no_digit
  cases hd : List.dropWhile isSpace s with
  | nil => rfl
  | cons c t =>
    rw [hd] at hs
    by_cases hm : c = '-'
    · simp only [splitSign, hm, if_true]
      apply takeWhile_isDigit_empty
      intro d r ht
      cases hdig : d.isDigit with
      | false => rfl
      | true =>
        exfalso
        apply h
        refine ⟨List.takeWhile isSpace s, ['-'], d, r, ?_, hws, Or.inr (Or.inl rfl), hdig⟩
        rw [List.append_assoc, ← ht, ← hm]
        exact hs
    · by_cases hp : c = '+'
      · have hpm : ¬ ('+' : Char) = '-' := by decide
        simp only [splitSign, hp, hpm, if_true, if_false]
        apply takeWhile_isDigit_empty
        intro d r ht
        cases hdig : d.isDigit with
        | false => rfl
        | true =>
          exfalso
          apply h
          refine ⟨List.takeWhile isSpace s, ['+'], d, r, ?_, hws, Or.inr (Or.inr rfl), hdig⟩
          rw [List.append_assoc, ← ht, ← hp]
          exact hs
      · simp only [splitSign, hm, hp, if_false]
        apply takeWhile_isDigit_empty
        intro d r ht
        cases hdig : d.isDigit with
        | false => rfl
        | true =>
          exfalso
          apply h
          refine ⟨List.takeWhile isSpace s, [], d, r, ?_, hws, Or.inl rfl, hdig⟩
          rw [List.append_nil, ← ht]
          exact hs

theorem dropWhile_isSpace_append (ws t : Str) (hws : ∀ c ∈ ws, isSpace c = true) :
    (ws ++ t).dropWhile isSpace = t.dropWhile isSpace := by
  induction ws with
  | nil => rfl
  | cons w ws ih =>
    have hw : isSpace w = true := hws w (List.mem_cons_self w ws)
    rw [List.cons_append, List.dropWhile_cons_of_pos hw]
    exact ih (fun c hc => hws c (List.mem_cons_of_mem w hc))

/-- Text that starts with an integer never makes `std::stoi` throw
`invalid_argument`. -/
theorem stoi_of_startsWithInteger (s : Str) (h : StartsWithInteger s) :
    stoi s ≠ Except.error StoiError.invalid_argument := by
  obtain ⟨ws, sign, d, rest, hs, hws, hsign, hd⟩ := h
  obtain ⟨_, _, hdm, hdp, hdsp⟩ := isDigit_not_special d hd
  apply stoi_not_invalid_of_digit
  rw [hs, List.append_assoc, dropWhile_isSpace_append ws _ hws]
  have hsm : isSpace '-' = false := by decide
  have hsp : isSpace '+' = false := by decide
  have hpm : ¬ ('+' : Char) = '-' := by decide
  rcases hsign with h0 | h0 | h0
  · rw [h0, List.nil_append, List.dropWhile_cons_of_neg (by rw [hdsp]; decide)]
    simp only [splitSign, hdm, hdp, if_false, List.takeWhile_cons_of_pos hd, List.isEmpty_cons]
  · rw [h0, List.singleton_append, List.dropWhile_cons_of_neg (by rw [hsm]; decide)]
    simp only [splitSign, if_true, List.takeWhile_cons_of_pos hd, List.isEmpty_cons]
  · rw [h0, List.singleton_append, List.dropWhile_cons_of_neg (by rw [hsp]; decide)]
    simp only [splitSign, hpm, if_true, if_false, List.takeWhile_cons_of_pos hd,
      List.isEmpty_cons]

theorem priorityField_eq (line type l1 id l2 loc l3 desc l4 ptext l5 : Str)
    (h1 : nextField line = (type, l1)) (h2 : nextField l1 = (id, l2))
    (h3 : nextField l2 = (loc, l3)) (h4 : nextField l3 = (desc, l4))
    (h5 : nextField l4 = (ptext, l5)) : priorityField line = ptext := by
  unfold priorityField
  rw [h1]; dsimp only
  rw [h2]; dsimp only
  rw [h3]; dsimp only
  rw [h4]; dsimp only
  rw [h5]

theorem restAfter_eight (line type l1 id l2 loc l3 desc l4 ptext l5 status l6 t7 l7 t8 l8 : Str)
    (h1 : nextField line = (type, l1)) (h2 : nextField l1 = (id, l2))
    (h3 : nextField l2 = (loc, l3)) (h4 : nextField l3 = (desc, l4))
    (h5 : nextField l4 = (ptext, l5)) (h6 : nextField l5 = (status, l6))
    (h7 : nextField l6 = (t7, l7)) (h8 : nextField l7 = (t8, l8)) :
    fieldAt 7 line = t8 ∧ restAfter 8 line = l8 := by
  unfold fieldAt
  simp only [restAfter]
  rw [h1]; dsimp only
  rw [h2]; dsimp only
  rw [h3]; dsimp only
  rw [h4]; dsimp only
  rw [h5]; dsimp only
  rw [h6]; dsimp only
  rw [h7]; dsimp only
  rw [h8]
  exact ⟨rfl, rfl⟩

/-! ## Properties of conversion errors and of a failed save -/

set_option maxRecDepth 100000 in
/-- C16, as stated, fails: a line whose priority field is not integer text
does not make `loadFromFile` fail when the loop never processes it. The file
of 100 lines `Fire,1` followed by the line `garbage` loads without error and
yields 100 records, because the loop stops at the capacity. -/
theorem non_integer_line_beyond_capacity :
    ¬ StartsWithInteger (priorityField "garbage".toList) ∧
    fileLines ((List.replicate 100 "Fire,1\n".toList).flatten ++ "garbage\n".toList)
      = List.replicate 100 "Fire,1".toList ++ ["garbage".toList] ∧
    EmergencyDispatcher.create (fun _ => 5)
        (World.mk (some ((List.replicate 100 "Fire,1\n".toList).flatten
          ++ "garbage\n".toList)) true [])
      = Except.ok (EmergencyDispatcher.mk (List.replicate 100
          (Emergency.mk "E5".toList "1".toList "1".toList 1 5 "1".toList
            (Variant.fire "1".toList 1 true)))) :=
  ⟨fun h => stoi_of_startsWithInteger _ h (by decide), by decide, by decide⟩

/-- C16, amended: for every line that the loop of `loadFromFile` processes
(reached after the lines before it loaded without error, with fewer than 100
records held) and whose priority field is not integer text (the empty text
included), or which is a Fire line whose severity field, or a Police line
whose officersNeeded text, is not integer text, the loop body raises a
conversion error of `std::stoi` instead of skipping the line or building a
record, and the load as a whole fails with that error. The error is
`invalid_argument` when the priority field is not integer text and also when
`std::stoi` accepts the priority. -/
theorem non_integer_field_raises (line : Str) (hbad : NonIntegerLine line) :
    (∀ now : Int, ∃ err, loadLine now line = Except.error err) ∧
    (¬ StartsWithInteger (priorityField line) →
      ∀ now : Int, loadLine now line = Except.error StoiError.invalid_argument) ∧
    (∀ pri, stoi (priorityField line) = Except.ok pri →
      ∀ now : Int, loadLine now line = Except.error StoiError.invalid_argument) ∧
    (∀ (clock : Nat → Int) (w : World) (content : Str) (pre rest : List Str)
        (es : List Emergency),
      w.file = some content → fileLines content = pre ++ line :: rest →
      loadLoop clock pre [] = Except.ok es → es.length < 100 →
      ∃ err, loadLine (clock es.length) line = Except.error err ∧
        EmergencyDispatcher.create clock w = Except.error err) ∧
    ¬ StartsWithInteger [] := by
  cases h1 : nextField line with
  | mk type l1 =>
  cases h2 : nextField l1 with
  | mk id l2 =>
  cases h3 : nextField l2 with
  | mk loc l3 =>
  cases h4 : nextField l3 with
  | mk desc l4 =>
  cases h5 : nextField l4 with
  | mk ptext l5 =>
  cases h6 : nextField l5 with
  | mk status l6 =>
  cases h7 : nextField l6 with
  | mk t7 l7 =>
  cases h8 : nextField l7 with
  | mk t8 l8 =>
  have hpf : priorityField line = ptext :=
    priorityField_eq line type l1 id l2 loc l3 desc l4 ptext l5 h1 h2 h3 h4 h5
  have htf : typeField line = type := by unfold typeField; rw [h1]
  obtain ⟨hsev, hoff⟩ := restAfter_eight line type l1 id l2 loc l3 desc l4 ptext l5 status l6
    t7 l7 t8 l8 h1 h2 h3 h4 h5 h6 h7 h8
  have hprio : ¬ StartsWithInteger (priorityField line) →
      ∀ now : Int, loadLine now line = Except.error StoiError.invalid_argument := by
    intro hni now
    rw [hpf] at hni
    exact loadLine_priority_error now line type l1 id l2 loc l3 desc l4 ptext l5 _
      h1 h2 h3 h4 h5 (stoi_of_not_startsWithInteger ptext hni)
  have hok : ∀ pri, stoi (priorityField line) = Except.ok pri →
      ∀ now : Int, loadLine now line = Except.error StoiError.invalid_argument := by
    intro pri hp now
    rcases hbad with hni | ⟨hty, hni⟩ | ⟨hty, hni⟩
    · exact hprio hni now
    · rw [htf] at hty
      subst hty
      rw [hpf] at hp
      unfold severityField at hni
      rw [hsev] at hni
      exact loadLine_fire_error_of now line l1 id l2 loc l3 desc l4 ptext l5 status l6 t7 l7
        t8 l8 pri _ h1 h2 h3 h4 h5 hp h6 h7 h8 (stoi_of_not_startsWithInteger t8 hni)
    · rw [htf] at hty
      subst hty
      rw [hpf] at hp
      unfold officersField at hni
      rw [hoff] at hni
      exact loadLine_police_error_of now line l1 id l2 loc l3 desc l4 ptext l5 status l6 t7
        l7 t8 l8 pri _ h1 h2 h3 h4 h5 hp h6 h7 h8 (stoi_of_not_startsWithInteger l8 hni)
  have hany : ∀ now : Int, ∃ err, loadLine now line = Except.error err := by
    intro now
    cases hp : stoi ptext with
    | error err =>
      exact ⟨err, loadLine_priority_error now line type l1 id l2 loc l3 desc l4 ptext l5 err
        h1 h2 h3 h4 h5 hp⟩
    | ok pri => exact ⟨_, hok pri (by rw [hpf]; exact hp) now⟩
  refine ⟨hany, hprio, hok, ?_, ?_⟩
  · intro clock w content pre rest es hfile hlines hpre hlt
    obtain ⟨err, herr⟩ := hany (clock es.length)
    refine ⟨err, herr, ?_⟩
    have hloop : loadLoop clock (fileLines content) [] = Except.error err := by
      rw [hlines, loadLoop_append clock pre (line :: rest) [] es hpre]
      exact loadLoop_cons_error clock line rest es err hlt herr
    simp only [EmergencyDispatcher.create, EmergencyDispatcher.loadFromFile, hfile, hloop]
  · intro hsi
    obtain ⟨ws, sign, d, rest, hs, _⟩ := hsi
    have hlen := congrArg List.length hs
    simp only [List.length_nil, List.length_append, List.length_cons] at hlen
    omega

theorem non_integer_field_raises_witness :
    NonIntegerLine "Medical,E1,Elm St,fall,high,Pending,Al,hip,1".toList ∧
    loadLine 5 "Medical,E1,Elm St,fall,high,Pending,Al,hip,1".toList
      = Except.error StoiError.invalid_argument ∧
    NonIntegerLine "Fire,E1,Dock,smoke,2,Pending,Depot,bad,0".toList ∧
    loadLine 5 "Fire,E1,Dock,smoke,2,Pending,Depot,bad,0".toList
      = Except.error StoiError.invalid_argument ∧
    NonIntegerLine "Police,E1,Bank,theft,2,Pending,theft,1,".toList ∧
    loadLine 5 "Police,E1,Bank,theft,2,Pending,theft,1,".toList
      = Except.error StoiError.invalid_argument ∧
    NonIntegerLine "Fire,E1,a,b,99999999999,Pending,c,bad,0".toList ∧
    (∃ err, loadLine 5 "Fire,E1,a,b,99999999999,Pending,c,bad,0".toList
      = Except.error err) ∧
    (∃ err, EmergencyDispatcher.create (fun _ => 5)
        (World.mk (some "Fire,1\nFire,E1,Dock,smoke,2,Pending,Depot,bad,0\n".toList) true [])
      = Except.error err) :=
  have hp : NonIntegerLine "Medical,E1,Elm St,fall,high,Pending,Al,hip,1".toList :=
    Or.inl (fun h => stoi_of_startsWithInteger _ h (by decide))
  have hs : NonIntegerLine "Fire,E1,Dock,smoke,2,Pending,Depot,bad,0".toList :=
    Or.inr (Or.inl ⟨by decide, fun h => stoi_of_startsWithInteger _ h (by decide)⟩)
  have ho : NonIntegerLine "Police,E1,Bank,theft,2,Pending,theft,1,".toList :=
    Or.inr (Or.inr ⟨by decide, fun h => stoi_of_startsWithInteger _ h (by decide)⟩)
  have hr : NonIntegerLine "Fire,E1,a,b,99999999999,Pending,c,bad,0".toList :=
    Or.inr (Or.inl ⟨by decide, fun h => stoi_of_startsWithInteger _ h (by decide)⟩)
  ⟨hp, (non_integer_field_raises _ hp).2.1 (fun h => stoi_of_startsWithInteger _ h (by decide)) 5,
   hs, (non_integer_field_raises _ hs).2.2.1 2 (by decide) 5,
   ho, (non_integer_field_raises _ ho).2.2.1 2 (by decide) 5,
   hr, (non_integer_field_raises _ hr).1 5,
   match (non_integer_field_raises _ hs).2.2.2.1 (fun _ => 5)
      (World.mk (some "Fire,1\nFire,E1,Dock,smoke,2,Pending,Depot,bad,0\n".toList) true [])
      _ ["Fire,1".toList] []
      [Emergency.mk "E5".toList "1".toList "1".toList 1 5 "1".toList
        (Variant.fire "1".toList 1 true)]
      rfl (by decide) (by decide) (by decide) with
   | ⟨err, _, h⟩ => ⟨err, h⟩⟩

/-- C17: when the file cannot be opened for writing, `saveToFile` leaves the
file content as it was (it only reports on `std::cerr`), and the mutation
still takes effect and reports success: `addEmergency` below capacity returns
true with the record appended, `updateEmergencyStatus` on an existing id
returns true with the status of the first match changed. -/
theorem save_failure_is_swallowed (d : EmergencyDispatcher) (w : World)
    (hw : w.canWrite = false) :
    (d.saveToFile w).file = w.file ∧
    (d.saveToFile w).cerr = w.cerr ++ "Error: Could not open file for writing.\n".toList ∧
    (∀ r, d.count < 100 →
      (d.addEmergency w r).1 = true ∧
      (d.addEmergency w r).2.1.emergencies = d.emergencies ++ [r] ∧
      (d.addEmergency w r).2.2.file = w.file) ∧
    (∀ id s, (∃ e ∈ d.emergencies, e.getId = id) →
      (d.updateEmergencyStatus w id s).1 = true ∧
      (d.updateEmergencyStatus w id s).2.2.file = w.file ∧
      ∃ pre r post, d.emergencies = pre ++ r :: post ∧ (∀ x ∈ pre, x.getId ≠ id) ∧
        r.getId = id ∧
        (d.updateEmergencyStatus w id s).2.1.emergencies
          = pre ++ r.updateStatus s :: post ∧
        (r.updateStatus s).status = s) := by
  have hsave : ∀ d1 : EmergencyDispatcher, (d1.saveToFile w).file = w.file := by
    intro d1
    simp only [EmergencyDispatcher.saveToFile, hw, Bool.false_eq_true, if_false]
  refine ⟨hsave d, ?_, ?_, ?_⟩
  · simp only [EmergencyDispatcher.saveToFile, hw, Bool.false_eq_true, if_false]
  · intro r hlt
    have hge : ¬ d.count ≥ MAX_EMERGENCIES := by
      unfold MAX_EMERGENCIES
      omega
    simp only [EmergencyDispatcher.addEmergency, hge, if_false, hsave, and_self]
  · intro id s hex
    obtain ⟨pre, r, post, hes, hpre, hr, hup⟩ := updateFirst_some id s d.emergencies hex
    simp only [EmergencyDispatcher.updateEmergencyStatus, hup, hsave, true_and]
    exact ⟨pre, r, post, hes, hpre, hr, rfl, rfl⟩

theorem save_failure_is_swallowed_witness :
    (World.mk (some ['o', 'l', 'd']) false []).canWrite = false ∧
    ((EmergencyDispatcher.mk []).addEmergency (World.mk (some ['o', 'l', 'd']) false [])
        (MedicalEmergency 5 [] [] 1 [] [] true)).1 = true ∧
    ((EmergencyDispatcher.mk []).addEmergency (World.mk (some ['o', 'l', 'd']) false [])
        (MedicalEmergency 5 [] [] 1 [] [] true)).2.2.file = some ['o', 'l', 'd'] :=
  ⟨rfl,
   ((save_failure_is_swallowed (EmergencyDispatcher.mk [])
      (World.mk (some ['o', 'l', 'd']) false []) rfl).2.2.1
      (MedicalEmergency 5 [] [] 1 [] [] true) (by decide)).1,
   ((save_failure_is_swallowed (EmergencyDispatcher.mk [])
      (World.mk (some ['o', 'l', 'd']) false []) rfl).2.2.1
      (MedicalEmergency 5 [] [] 1 [] [] true) (by decide)).2.2⟩

/-! ## Supporting lemmas: loading twice -/

theorem fileLines_no_line_feed (s : Str) : ∀ l ∈ fileLines s, '\n' ∉ l := by
  induction s with
  | nil => intro l hl; exact absurd hl (List.not_mem_nil l)
  | cons c rest ih =>
    intro l hl
    by_cases hc : c = '\n'
    · simp only [fileLines, hc, if_true, List.mem_cons] at hl
      rcases hl with h | h
      · rw [h]; exact List.not_mem_nil _
      · exact ih l h
    · simp only [fileLines, hc, if_false] at hl
      cases hf : fileLines rest with
      | nil =>
        simp only [hf, List.mem_singleton] at hl
        rw [hl]
        intro hmem
        exact hc (List.mem_singleton.mp hmem).symm
      | cons x xs =>
        simp only [hf, List.mem_cons] at hl
        rcases hl with h | h
        · rw [h]
          intro hmem
          rcases List.mem_cons.mp hmem with h1 | h1
          · exact hc h1.symm
          · exact ih x (by rw [hf]; exact List.mem_cons_self x xs) h1
        · exact ih l (by rw [hf]; exact List.mem_cons_of_mem x h)

theorem loadedFrom_wellFormed (now : Int) (line : Str) (e : Emergency)
    (h : LoadedFrom now line e) : e.WellFormed := by
  obtain ⟨hid, hts, _, _, hints, _⟩ := h
  exact ⟨by rw [hid, hts], hints⟩

theorem loadedFrom_persistable (now : Int) (line : Str) (e : Emergency)
    (h : LoadedFrom now line e) (hline : '\n' ∉ line) : e.Persistable := by
  obtain ⟨_, _, _, hv, _, htext⟩ := h
  exact ⟨hv, fun t ht => ⟨(htext t ht).1, fun hmem => hline ((htext t ht).2 _ hmem)⟩⟩

/-- What holds of every record the loop body can build from a line of the
file holds of every record of the constructed store, and the store holds at
most `MAX_EMERGENCIES` records. -/
theorem create_invariant (clock : Nat → Int) (w : World) (d : EmergencyDispatcher)
    (P : Emergency → Prop)
    (hP : ∀ k line e, '\n' ∉ line → loadLine (clock k) line = Except.ok (some e) → P e)
    (h : EmergencyDispatcher.create clock w = Except.ok d) :
    ∀ e ∈ d.emergencies, P e := by
  unfold EmergencyDispatcher.create EmergencyDispatcher.loadFromFile at h
  cases hf : w.file with
  | none =>
    simp only [hf] at h
    cases h
    intro e he
    exact absurd he (List.not_mem_nil e)
  | some content =>
    simp only [hf] at h
    cases hl : loadLoop clock (fileLines content) [] with
    | error err =>
      rw [hl] at h
      cases h
    | ok es =>
      rw [hl] at h
      cases h
      exact (loadLoop_invariant clock P (fileLines content) [] es
        (fun k line hline e he => hP k line e (fileLines_no_line_feed content line hline) he)
        (fun e he => absurd he (List.not_mem_nil e)) (Nat.zero_le _) hl).1

/-- The outcome of the loop body depends on the clock reading only through
the identifier and the creation time of the record. -/
theorem loadLine_reclock (now1 now2 : Int) (line : Str) :
    loadLine now2 line =
      match loadLine now1 line with
      | Except.error err => Except.error err
      | Except.ok none => Except.ok none
      | Except.ok (some e) => Except.ok (some (e.reloaded now2)) := by
  cases h1 : nextField line with
  | mk type l1 =>
  cases h2 : nextField l1 with
  | mk id l2 =>
  cases h3 : nextField l2 with
  | mk loc l3 =>
  cases h4 : nextField l3 with
  | mk desc l4 =>
  cases h5 : nextField l4 with
  | mk ptext l5 =>
  cases hp : stoi ptext with
  | error err =>
    rw [loadLine_priority_error now2 line type l1 id l2 loc l3 desc l4 ptext l5 err
        h1 h2 h3 h4 h5 hp,
      loadLine_priority_error now1 line type l1 id l2 loc l3 desc l4 ptext l5 err
        h1 h2 h3 h4 h5 hp]
  | ok pri =>
  cases h6 : nextField l5 with
  | mk status l6 =>
  cases h7 : nextField l6 with
  | mk t7 l7 =>
  cases h8 : nextField l7 with
  | mk t8 l8 =>
  by_cases hm : type = "Medical".toList
  · subst hm
    rw [loadLine_medical_of now2 line l1 id l2 loc l3 desc l4 ptext l5 status l6 t7 l7 t8 l8
        pri h1 h2 h3 h4 h5 hp h6 h7 h8,
      loadLine_medical_of now1 line l1 id l2 loc l3 desc l4 ptext l5 status l6 t7 l7 t8 l8
        pri h1 h2 h3 h4 h5 hp h6 h7 h8]
    rfl
  · by_cases hf : type = "Fire".toList
    · subst hf
      cases hs : stoi t8 with
      | error err =>
        rw [loadLine_fire_error_of now2 line l1 id l2 loc l3 desc l4 ptext l5 status l6 t7
            l7 t8 l8 pri err h1 h2 h3 h4 h5 hp h6 h7 h8 hs,
          loadLine_fire_error_of now1 line l1 id l2 loc l3 desc l4 ptext l5 status l6 t7
            l7 t8 l8 pri err h1 h2 h3 h4 h5 hp h6 h7 h8 hs]
      | ok sev =>
        rw [loadLine_fire_of now2 line l1 id l2 loc l3 desc l4 ptext l5 status l6 t7 l7 t8
            l8 pri sev h1 h2 h3 h4 h5 hp h6 h7 h8 hs,
          loadLine_fire_of now1 line l1 id l2 loc l3 desc l4 ptext l5 status l6 t7 l7 t8
            l8 pri sev h1 h2 h3 h4 h5 hp h6 h7 h8 hs]
        rfl
    · by_cases hpo : type = "Police".toList
      · subst hpo
        cases ho : stoi l8 with
        | error err =>
          rw [loadLine_police_error_of now2 line l1 id l2 loc l3 desc l4 ptext l5 status l6
              t7 l7 t8 l8 pri err h1 h2 h3 h4 h5 hp h6 h7 h8 ho,
            loadLine_police_error_of now1 line l1 id l2 loc l3 desc l4 ptext l5 status l6
              t7 l7 t8 l8 pri err h1 h2 h3 h4 h5 hp h6 h7 h8 ho]
        | ok off =>
          rw [loadLine_police_of now2 line l1 id l2 loc l3 desc l4 ptext l5 status l6 t7 l7
              t8 l8 pri off h1 h2 h3 h4 h5 hp h6 h7 h8 ho,
            loadLine_police_of now1 line l1 id l2 loc l3 desc l4 ptext l5 status l6 t7 l7
              t8 l8 pri off h1 h2 h3 h4 h5 hp h6 h7 h8 ho]
          rfl
      · rw [loadLine_other_of now2 line type l1 id l2 loc l3 desc l4 ptext l5 pri
            h1 h2 h3 h4 h5 hp hm hf hpo,
          loadLine_other_of now1 line type l1 id l2 loc l3 desc l4 ptext l5 pri
            h1 h2 h3 h4 h5 hp hm hf hpo]

theorem loadLoop_reclock (clock1 clock2 : Nat → Int) (lines : List Str)
    (acc1 acc2 es1 : List Emergency) (hlen : acc1.length = acc2.length)
    (h : loadLoop clock1 lines acc1 = Except.ok es1) :
    ∃ new1, es1 = acc1 ++ new1 ∧
      loadLoop clock2 lines acc2 = Except.ok (acc2 ++ reloadAll clock2 acc2.length new1) := by
  induction lines generalizing acc1 acc2 with
  | nil =>
    simp only [loadLoop] at h
    cases h
    exact ⟨[], by simp, by simp [loadLoop, reloadAll]⟩
  | cons line rest ih =>
    by_cases hlt : acc1.length < MAX_EMERGENCIES
    · have hlt2 : acc2.length < MAX_EMERGENCIES := by rw [← hlen]; exact hlt
      have hre := loadLine_reclock (clock1 acc1.length) (clock2 acc2.length) line
      cases hline : loadLine (clock1 acc1.length) line with
      | error err =>
        rw [loadLoop_cons_error clock1 line rest acc1 err hlt hline] at h
        cases h
      | ok r =>
        cases r with
        | none =>
          rw [hline] at hre
          rw [loadLoop_cons_none clock1 line rest acc1 hlt hline] at h
          obtain ⟨new1, hes, hl2⟩ := ih acc1 acc2 hlen h
          exact ⟨new1, hes, by rw [loadLoop_cons_none clock2 line rest acc2 hlt2 hre]; exact hl2⟩
        | some e =>
          rw [hline] at hre
          rw [loadLoop_cons_some clock1 line rest acc1 e hlt hline] at h
          obtain ⟨new1, hes, hl2⟩ := ih (acc1 ++ [e])
            (acc2 ++ [e.reloaded (clock2 acc2.length)])
            (by simp only [List.length_append, List.length_cons, List.length_nil, hlen]) h
          refine ⟨e :: new1, by rw [hes]; simp, ?_⟩
          rw [loadLoop_cons_some clock2 line rest acc2 _ hlt2 hre, hl2]
          simp [reloadAll]
    · have hlt2 : ¬ acc2.length < MAX_EMERGENCIES := by rw [← hlen]; exact hlt
      rw [loadLoop_full clock1 _ acc1 hlt] at h
      cases h
      exact ⟨[], by simp, by rw [loadLoop_full clock2 _ acc2 hlt2]; simp [reloadAll]⟩

theorem create_wellFormed_persistable (clock : Nat → Int) (w : World) (d : EmergencyDispatcher)
    (h : EmergencyDispatcher.create clock w = Except.ok d) :
    ∀ e ∈ d.emergencies, e.WellFormed ∧ e.Persistable :=
  create_invariant clock w d (fun e => e.WellFormed ∧ e.Persistable)
    (fun _ line e hline he =>
      ⟨loadedFrom_wellFormed _ line e (loadLine_id _ line e he),
       loadedFrom_persistable _ line e (loadLine_id _ line e he) hline⟩) h

/-- Saving a constructed store back to the world it was loaded from and
constructing a store again rebuilds every record with only the identifier
and the creation time renewed, whether or not the file can be written. -/
theorem create_save_create (clock1 clock2 : Nat → Int) (w : World) (d1 : EmergencyDispatcher)
    (h : EmergencyDispatcher.create clock1 w = Except.ok d1) :
    EmergencyDispatcher.create clock2 (d1.saveToFile w)
      = Except.ok { emergencies := reloadAll clock2 0 d1.emergencies } := by
  cases hw : w.canWrite with
  | true =>
    exact create_after_save clock2 d1 w hw (create_count_le clock1 w d1 h)
      (fun e he => (create_wellFormed_persistable clock1 w d1 h e he).1)
      (fun e he => (create_wellFormed_persistable clock1 w d1 h e he).2)
  | false =>
    have hfile : (d1.saveToFile w).file = w.file := by
      simp only [EmergencyDispatcher.saveToFile, hw, Bool.false_eq_true, if_false]
    unfold EmergencyDispatcher.create EmergencyDispatcher.loadFromFile at h ⊢
    rw [hfile]
    cases hf : w.file with
    | none =>
      simp only [hf] at h ⊢
      cases h
      rfl
    | some content =>
      simp only [hf] at h ⊢
      cases hl : loadLoop clock1 (fileLines content) [] with
      | error err =>
        rw [hl] at h
        cases h
      | ok es =>
        rw [hl] at h
        cases h
        obtain ⟨new1, hes, hl2⟩ := loadLoop_reclock clock1 clock2 (fileLines content) [] [] es
          rfl hl
        simp only [List.nil_append, List.length_nil] at hes hl2
        rw [hl2, hes]

theorem stoi_decimalText (negative : Bool) (ds : Str) (hne : ds ≠ [])
    (hd : ∀ c ∈ ds, c.isDigit = true) (hr : InIntRange (decimalValue negative ds)) :
    stoi (decimalText negative ds) = Except.ok (decimalValue negative ds) := by
  cases hds : ds with
  | nil => exact absurd hds hne
  | cons c t =>
    have hc : c.isDigit = true := hd c (by rw [hds]; exact List.mem_cons_self c t)
    obtain ⟨_, _, hminus, hplus, hspace⟩ := isDigit_not_special c hc
    have htw : (c :: t).takeWhile Char.isDigit = c :: t := by
      rw [← hds]; exact List.takeWhile_eq_self_iff.mpr hd
    have hsm : isSpace '-' = false := by decide
    rw [hds] at hr
    unfold InIntRange at hr
    cases negative with
    | false =>
      simp only [decimalValue, Bool.false_eq_true, if_false] at hr
      unfold stoi
      simp only [decimalText, decimalValue, Bool.false_eq_true, if_false, List.dropWhile,
        hspace, splitSign, hminus, hplus, htw, List.isEmpty_cons, hr, and_self, if_true]
    | true =>
      simp only [decimalValue, if_true] at hr
      unfold stoi
      simp only [decimalText, decimalValue, if_true, List.dropWhile, hsm, splitSign, htw,
        List.isEmpty_cons, Bool.false_eq_true, if_false, hr, and_self]

theorem decimalText_no_separator (negative : Bool) (ds : Str)
    (hd : ∀ c ∈ ds, c.isDigit = true) :
    ',' ∉ decimalText negative ds ∧ '\n' ∉ decimalText negative ds := by
  have h1 : ',' ∉ ds := fun h => (isDigit_not_special _ (hd _ h)).1 rfl
  have h2 : '\n' ∉ ds := fun h => (isDigit_not_special _ (hd _ h)).2.1 rfl
  cases negative with
  | false => exact ⟨h1, h2⟩
  | true =>
    constructor
    · intro h
      rcases List.mem_cons.mp h with h3 | h3
      · revert h3; decide
      · exact h1 h3
    · intro h
      rcases List.mem_cons.mp h with h3 | h3
      · revert h3; decide
      · exact h2 h3

/-! ## Properties of loading twice and of short lines -/

/-- C18: when the clock reads the same second `t` during one construction of
the store, every loaded record has the same identifier; with two or more
loaded records `updateEmergencyStatus` with that identifier returns true and
changes the status of the first record only; and for no identifier at all
does `updateEmergencyStatus` change a record after the first. -/
theorem same_second_load_shares_id (clock : Nat → Int) (t : Int) (w : World)
    (d : EmergencyDispatcher) (hclock : ∀ k, clock k = t)
    (h : EmergencyDispatcher.create clock w = Except.ok d) :
    (∀ e ∈ d.emergencies, e.id = 'E' :: to_string (t.tmod 10000)) ∧
    (∀ first second rest, d.emergencies = first :: second :: rest → ∀ (w1 : World) (s : Str),
      (d.updateEmergencyStatus w1 ('E' :: to_string (t.tmod 10000)) s).1 = true ∧
      (d.updateEmergencyStatus w1 ('E' :: to_string (t.tmod 10000)) s).2.1.emergencies
        = first.updateStatus s :: second :: rest) ∧
    (∀ first later, d.emergencies = first :: later → ∀ (w1 : World) (id s : Str),
      (d.updateEmergencyStatus w1 id s).2.1.emergencies.tail = later) := by
  have hids : ∀ e ∈ d.emergencies, e.id = 'E' :: to_string (t.tmod 10000) :=
    create_invariant clock w d (fun e => e.id = 'E' :: to_string (t.tmod 10000))
      (fun k line e _ he => by
        have hid := (loadLine_id _ line e he).1
        rw [hclock k] at hid
        exact hid) h
  refine ⟨hids, ?_, ?_⟩
  · intro first second rest hes w1 s
    have hfirst : first.getId = 'E' :: to_string (t.tmod 10000) :=
      hids first (by rw [hes]; exact List.mem_cons_self _ _)
    simp only [EmergencyDispatcher.updateEmergencyStatus, hes, updateFirst, hfirst, if_true,
      and_self]
  · intro first later hes w1 id s
    by_cases hid : first.getId = id
    · simp only [EmergencyDispatcher.updateEmergencyStatus, hes, updateFirst, hid, if_true,
        List.tail_cons]
    · have hnone : updateFirst id s d.emergencies = none := by
        apply updateFirst_none
        intro e he
        have he1 : e.getId = first.getId := by
          unfold Emergency.getId
          rw [hids e he, hids first (by rw [hes]; exact List.mem_cons_self _ _)]
        rw [he1]
        exact hid
      have hres : (d.updateEmergencyStatus w1 id s).2.1 = d := by
        simp only [EmergencyDispatcher.updateEmergencyStatus, hnone]
      rw [hres, hes]
      rfl

theorem same_second_load_shares_id_witness :
    ((EmergencyDispatcher.mk [
        Emergency.mk "E1234".toList "a".toList "b".toList 1 1700001234 "Pending".toList
          (Variant.medical "c".toList "d".toList true),
        Emergency.mk "E1234".toList "e".toList "f".toList 2 1700001234 "Pending".toList
          (Variant.fire "g".toList 3 false)]).updateEmergencyStatus (World.mk none false [])
        "E1234".toList "Resolved".toList).2.1.emergencies
      = [Emergency.mk "E1234".toList "a".toList "b".toList 1 1700001234 "Resolved".toList
          (Variant.medical "c".toList "d".toList true),
        Emergency.mk "E1234".toList "e".toList "f".toList 2 1700001234 "Pending".toList
          (Variant.fire "g".toList 3 false)] :=
  ((same_second_load_shares_id (fun _ => 1700001234) 1700001234
      (World.mk (some "Medical,E1,a,b,1,Pending,c,d,1\nFire,E2,e,f,2,Pending,g,3,0\n".toList)
        true [])
      (EmergencyDispatcher.mk [
        Emergency.mk "E1234".toList "a".toList "b".toList 1 1700001234 "Pending".toList
          (Variant.medical "c".toList "d".toList true),
        Emergency.mk "E1234".toList "e".toList "f".toList 2 1700001234 "Pending".toList
          (Variant.fire "g".toList 3 false)])
      (fun _ => rfl) (by decide)).2.1 _ _ _ rfl (World.mk none false [])
      "Resolved".toList).2

/-- C19, as stated, fails: the file with the one line
`Fire,E42,Warehouse,smoke,2,Dispatched,Industrial,4,0` is loaded at clock
reading 5, saved, and loaded again at clock reading 6; the record of the
second load differs from the record of the first load not only in the
identifier but also in the creation time, a field of the class. -/
theorem reload_changes_timestamp :
    EmergencyDispatcher.create (fun _ => 5)
        (World.mk (some "Fire,E42,Warehouse,smoke,2,Dispatched,Industrial,4,0\n".toList)
          true [])
      = Except.ok { emergencies := [Emergency.mk "E5".toList "Warehouse".toList
          "smoke".toList 2 5 "Dispatched".toList (Variant.fire "Industrial".toList 4 false)] } ∧
    EmergencyDispatcher.create (fun _ => 6)
        ((EmergencyDispatcher.mk [Emergency.mk "E5".toList "Warehouse".toList
            "smoke".toList 2 5 "Dispatched".toList
            (Variant.fire "Industrial".toList 4 false)]).saveToFile
          (World.mk (some "Fire,E42,Warehouse,smoke,2,Dispatched,Industrial,4,0\n".toList)
            true []))
      = Except.ok { emergencies := [Emergency.mk "E6".toList "Warehouse".toList
          "smoke".toList 2 6 "Dispatched".toList (Variant.fire "Industrial".toList 4 false)] } ∧
    (Emergency.mk "E6".toList "Warehouse".toList "smoke".toList 2 6 "Dispatched".toList
        (Variant.fire "Industrial".toList 4 false)).timestamp
      ≠ (Emergency.mk "E5".toList "Warehouse".toList "smoke".toList 2 5 "Dispatched".toList
        (Variant.fire "Industrial".toList 4 false)).timestamp := by
  refine ⟨by decide, by decide, by decide⟩

/-- C19, amended: no free-text field of a record produced by `loadFromFile`
holds a comma or a line feed, and for every world on which the construction
of the store succeeds, saving the loaded store and constructing a store from
the result again succeeds and gives the same number of records, in the same
order, each the record of the first load with only the identifier and the
creation time renewed: type, location, description, priority, status and
variant fields are the same. -/
theorem load_normalizes (clock1 clock2 : Nat → Int) (w : World) (d1 : EmergencyDispatcher)
    (h : EmergencyDispatcher.create clock1 w = Except.ok d1) :
    (∀ e ∈ d1.emergencies, ∀ t ∈ e.textFields, ',' ∉ t ∧ '\n' ∉ t) ∧
    ∃ d2, EmergencyDispatcher.create clock2 (d1.saveToFile w) = Except.ok d2 ∧
      d2.count = d1.count ∧
      d2.emergencies = reloadAll clock2 0 d1.emergencies ∧
      List.Forall₂ Emergency.SameFields d2.emergencies d1.emergencies :=
  ⟨fun e he => (create_wellFormed_persistable clock1 w d1 h e he).2.2,
   { emergencies := reloadAll clock2 0 d1.emergencies },
   create_save_create clock1 clock2 w d1 h,
   reloadAll_length clock2 0 d1.emergencies, rfl,
   reloadAll_sameFields clock2 0 d1.emergencies⟩

theorem load_normalizes_witness :
    ∃ d2, EmergencyDispatcher.create (fun _ => 6)
        ((EmergencyDispatcher.mk [Emergency.mk "E5".toList "7".toList "7".toList 7 5
            "7".toList (Variant.fire "7".toList 7 false)]).saveToFile
          (World.mk (some "Fire,7".toList) true [])) = Except.ok d2 ∧
      d2.count = 1 :=
  match (load_normalizes (fun _ => 5) (fun _ => 6) (World.mk (some "Fire,7".toList) true [])
      (EmergencyDispatcher.mk [Emergency.mk "E5".toList "7".toList "7".toList 7 5
        "7".toList (Variant.fire "7".toList 7 false)]) (by decide)).2 with
  | ⟨d2, h1, h2, _⟩ => ⟨d2, h1, h2⟩

/-- C20: once no comma is left, `nextField` returns the whole leftover text
and removes nothing. For every decimal integer text `n` (optional minus sign,
then digits) whose value fits an `int`, the line `Fire,n` loads as one Fire
record whose location, description, status and buildingType are `n`, whose
priority and severity are the value of `n`, and whose hazardousMaterials is
true exactly when `n` is the text `1`. -/
theorem short_fire_line (negative : Bool) (ds : Str) (hne : ds ≠ [])
    (hd : ∀ c ∈ ds, c.isDigit = true) (hr : InIntRange (decimalValue negative ds)) :
    (∀ s : Str, ',' ∉ s → nextField s = (s, s)) ∧
    (∀ now : Int, loadLine now ("Fire,".toList ++ decimalText negative ds)
      = Except.ok (some (Emergency.mk ('E' :: to_string (now.tmod 10000))
          (decimalText negative ds) (decimalText negative ds) (decimalValue negative ds) now
          (decimalText negative ds)
          (Variant.fire (decimalText negative ds) (decimalValue negative ds)
            (decide (decimalText negative ds = "1".toList)))))) ∧
    (∀ (clock : Nat → Int) (canWrite : Bool) (cerr : Str),
      EmergencyDispatcher.create clock
          (World.mk (some ("Fire,".toList ++ decimalText negative ds ++ "\n".toList))
            canWrite cerr)
        = Except.ok { emergencies := [Emergency.mk ('E' :: to_string ((clock 0).tmod 10000))
          (decimalText negative ds) (decimalText negative ds) (decimalValue negative ds)
          (clock 0) (decimalText negative ds)
          (Variant.fire (decimalText negative ds) (decimalValue negative ds)
            (decide (decimalText negative ds = "1".toList)))] }) := by
  obtain ⟨hcomma, hfeed⟩ := decimalText_no_separator negative ds hd
  have hstoi := stoi_decimalText negative ds hne hd hr
  have hn := nextField_no_comma (decimalText negative ds) hcomma
  have hline : ∀ now : Int, loadLine now ("Fire,".toList ++ decimalText negative ds)
      = Except.ok (some (Emergency.mk ('E' :: to_string (now.tmod 10000))
          (decimalText negative ds) (decimalText negative ds) (decimalValue negative ds) now
          (decimalText negative ds)
          (Variant.fire (decimalText negative ds) (decimalValue negative ds)
            (decide (decimalText negative ds = "1".toList))))) := by
    intro now
    have h1 : nextField ("Fire,".toList ++ decimalText negative ds)
        = ("Fire".toList, decimalText negative ds) :=
      nextField_append "Fire".toList (decimalText negative ds) (by decide)
    exact loadLine_fire_of now _ _ _ _ _ _ _ _ _ _ _ _ _ _ _ _ _ _
      h1 hn hn hn hn hstoi hn hn hn hstoi
  refine ⟨nextField_no_comma, hline, ?_⟩
  intro clock canWrite cerr
  have hlines : fileLines ("Fire,".toList ++ decimalText negative ds ++ "\n".toList)
      = [("Fire,".toList ++ decimalText negative ds)] := by
    have hnf : '\n' ∉ "Fire,".toList ++ decimalText negative ds := by
      intro hmem
      rcases List.mem_append.mp hmem with h1 | h1
      · revert h1; decide
      · exact hfeed h1
    exact fileLines_append _ [] hnf
  have hlt : ([] : List Emergency).length < MAX_EMERGENCIES := by decide
  simp only [EmergencyDispatcher.create, EmergencyDispatcher.loadFromFile, hlines]
  rw [loadLoop_cons_some clock _ [] [] _ hlt (hline (clock 0))]
  rfl

theorem short_fire_line_witness :
    loadLine 5 ("Fire,".toList ++ decimalText true "12".toList)
      = Except.ok (some (Emergency.mk "E5".toList "-12".toList "-12".toList (-12) 5
          "-12".toList (Variant.fire "-12".toList (-12) false))) :=
  (short_fire_line true "12".toList (by decide) (by decide) (by decide)).2.1 5

end EmergencyDispatcherSim
